import Mathlib

/-!
# Verification of the artifacts-mmo action engine against its specification

This development shallowly embeds the parts of the source that the spec's
testable properties talk about:

* the bank reservation ledger (`src/worldstate.py`:
  `set_bank_reservation`, `update_bank_reservation`, `clear_bank_reservation`,
  `get_amount_of_item_in_bank`, `get_amount_of_item_reserved_in_bank`),
* the condition-expression data model and its construction-time validation
  (`src/action.py`: `ActionConditionExpression.__post_init__`),
* the per-character executor (`src/scheduler.py`: `_process_node`,
  `_process_single_character_action`, `_process_group`,
  `_process_control_node`, `_evaluate_condition`) together with the worker
  loop's abort handling (`_worker`).

Python dicts are modelled as association lists with unique keys
(`dictGet`/`dictInsert`/`dictRemove`), quantities and timestamps as `Int`,
and the external collaborators (the remote API, the character predicates
backing condition leaves, and the externally mutated abort flag) as oracle
functions supplied to the interpreter.
-/

namespace ArtifactsMmo

/-! ## Python dict model -/

/-- `d.get(k)` on a Python dict modelled as an association list. -/
def dictGet {α : Type} (k : String) : List (String × α) → Option α
  | [] => none
  | (k2, v) :: rest => if k2 = k then some v else dictGet k rest

/-- `d[k] = v` on a Python dict: replace the existing binding in place, or
append a new one. -/
def dictInsert {α : Type} (k : String) (v : α) : List (String × α) → List (String × α)
  | [] => [(k, v)]
  | (k2, v2) :: rest => if k2 = k then (k2, v) :: rest else (k2, v2) :: dictInsert k v rest

/-- `del d[k]` on a Python dict.  Keys are unique in a real dict, so removing
every binding for `k` is the same as removing the one binding. -/
def dictRemove {α : Type} (k : String) (l : List (String × α)) : List (String × α) :=
  l.filter (fun kv => kv.1 ≠ k)

/-- `Except.isOk` as a plain Bool: did the operation complete without raising? -/
def exceptOk {ε α : Type} : Except ε α → Bool
  | .ok _ => true
  | .error _ => false

/-! ## Bank reservation ledger (WorldState, src/worldstate.py)

Only the bank portion of `WorldState` is relevant to the ledger claims:
`_bank_data` (item code → raw quantity) and `bank_reservations`
(character → item code → reservation).  A reservation entry in the source is
the dict `{"quantity": ..., "reserved_at": datetime.now()}`; `reserved_at`
is written but never read back anywhere in the source, so the model keeps
only the quantity. -/

structure BankState where
  /-- `WorldState._bank_data`: item code → raw quantity in the bank. -/
  bank_data : List (String × Int)
  /-- `WorldState.bank_reservations`: character → (item code → reserved quantity). -/
  bank_reservations : List (String × List (String × Int))
  deriving Repr, DecidableEq

/-- `WorldState.set_bank_reservation`:
`self.bank_reservations.setdefault(character, {})[item] = {"quantity": quantity, ...}`.
Keyed assignment: an existing reservation for the same (character, item) is
replaced, not accumulated. -/
def set_bank_reservation (s : BankState) (character item : String) (quantity : Int) :
    BankState :=
  let char_reservations := (dictGet character s.bank_reservations).getD []
  { s with bank_reservations :=
      dictInsert character (dictInsert item quantity char_reservations) s.bank_reservations }

/-- `WorldState.update_bank_reservation`: raises when the (character, item)
reservation is missing — whether the character has no ledger entry at all or
merely none for that item — otherwise adds `qty_delta`, deleting the entry
when the quantity reaches exactly 0. -/
def update_bank_reservation (s : BankState) (character item : String) (qty_delta : Int) :
    Except String BankState :=
  let char_reservations := (dictGet character s.bank_reservations).getD []
  match dictGet item char_reservations with
  | none => .error ("Could not find reservation of " ++ item ++ " for " ++ character)
  | some q =>
      let q2 := q + qty_delta
      if q2 = 0 then
        .ok { s with bank_reservations :=
            dictInsert character (dictRemove item char_reservations) s.bank_reservations }
      else
        .ok { s with bank_reservations :=
            dictInsert character (dictInsert item q2 char_reservations) s.bank_reservations }

/-- `WorldState.clear_bank_reservation`.  The guard
`if char_reservations := self.bank_reservations.get(character, {}):` is falsy
when the character has no (or an empty) entry, so the whole call silently does
nothing in that case.  `if not item:` is falsy both for `None` and for the
empty string, and deletes the character's whole entry; otherwise a present
item is deleted and a missing one raises. -/
def clear_bank_reservation (s : BankState) (character : String) (item : Option String) :
    Except String BankState :=
  let char_reservations := (dictGet character s.bank_reservations).getD []
  if char_reservations = [] then
    .ok s
  else
    match item with
    | none => .ok { s with bank_reservations := dictRemove character s.bank_reservations }
    | some it =>
        if it = "" then
          .ok { s with bank_reservations := dictRemove character s.bank_reservations }
        else if (dictGet it char_reservations).isSome then
          .ok { s with bank_reservations :=
              dictInsert character (dictRemove it char_reservations) s.bank_reservations }
        else
          .error ("Could not find reservation of " ++ it ++ " for " ++ character)

/-- Inner loop of `WorldState.get_amount_of_item_reserved_in_bank`:
`amount_reserved += r_info["quantity"] if r_item == item else 0` over one
character's reservations. -/
def reservedInList (item : String) (reservations : List (String × Int)) : Int :=
  reservations.foldl (fun acc r => acc + (if r.1 = item then r.2 else 0)) 0

/-- `WorldState.get_amount_of_item_reserved_in_bank`: sum of the quantities
reserved for `item` over all characters. -/
def get_amount_of_item_reserved_in_bank (s : BankState) (item : String) : Int :=
  s.bank_reservations.foldl (fun acc cr => acc + reservedInList item cr.2) 0

/-- `WorldState.get_amount_of_item_in_bank`: raw quantity minus total
reserved when the item is in `_bank_data`, and plain `0` otherwise (the
`else` branch ignores any reservations for an item that is absent from the
bank snapshot). -/
def get_amount_of_item_in_bank (s : BankState) (item : String) : Int :=
  match dictGet item s.bank_data with
  | some amount_in_bank => amount_in_bank - get_amount_of_item_reserved_in_bank s item
  | none => 0

/-- `CharacterAgent.meta_perform`, `CREATE_ITEM_RESERVATION` case
(src/character.py), and equivalently `WorldState.perform`'s
`CREATE_ITEM_RESERVATION` case: `set_bank_reservation` for each item in the
`items` parameter. -/
def create_item_reservation (s : BankState) (name : String) (items : List (String × Int)) :
    BankState :=
  items.foldl (fun acc it => set_bank_reservation acc name it.1 it.2) s

/-- One call against the reservation ledger, for stating "after any sequence
of reserve/update/clear calls". -/
inductive LedgerOp where
  | reserve (character item : String) (quantity : Int)
  | update (character item : String) (qty_delta : Int)
  | clear (character : String) (item : Option String)
  deriving Repr, DecidableEq

def applyLedgerOp (s : BankState) : LedgerOp → Except String BankState
  | .reserve c i q => .ok (set_bank_reservation s c i q)
  | .update c i d => update_bank_reservation s c i d
  | .clear c i => clear_bank_reservation s c i

def applyLedgerOps (s : BankState) : List LedgerOp → Except String BankState
  | [] => .ok s
  | op :: ops =>
      match applyLedgerOp s op with
      | .ok s2 => applyLedgerOps s2 ops
      | .error e => .error e

/-! ### Ledger helper lemmas -/

theorem dictGet_dictInsert_self {α : Type} (k : String) (v : α) (l : List (String × α)) :
    dictGet k (dictInsert k v l) = some v := by
  induction l with
  | nil => simp [dictGet, dictInsert]
  | cons kv rest ih =>
      by_cases h : kv.1 = k
      · simp [dictInsert, dictGet, h]
      · simpa [dictInsert, dictGet, h] using ih

/-- No ledger call changes the raw bank snapshot. -/
theorem applyLedgerOp_bank_data (s s' : BankState) (op : LedgerOp)
    (h : applyLedgerOp s op = .ok s') : s'.bank_data = s.bank_data := by
  cases op with
  | reserve c i q =>
      simp only [applyLedgerOp, Except.ok.injEq] at h
      subst h; rfl
  | update c i d =>
      simp only [applyLedgerOp, update_bank_reservation] at h
      split at h
      · exact absurd h (by simp)
      · split at h <;> (simp only [Except.ok.injEq] at h; subst h; rfl)
  | clear c i =>
      simp only [applyLedgerOp, clear_bank_reservation] at h
      split at h
      · simp only [Except.ok.injEq] at h; subst h; rfl
      · split at h
        · simp only [Except.ok.injEq] at h; subst h; rfl
        · split at h
          · simp only [Except.ok.injEq] at h; subst h; rfl
          · split at h
            · simp only [Except.ok.injEq] at h; subst h; rfl
            · exact absurd h (by simp)

theorem applyLedgerOps_bank_data (ops : List LedgerOp) :
    ∀ s s' : BankState, applyLedgerOps s ops = .ok s' → s'.bank_data = s.bank_data := by
  induction ops with
  | nil =>
      intro s s' h
      simp only [applyLedgerOps, Except.ok.injEq] at h
      subst h; rfl
  | cons op rest ih =>
      intro s s' h
      simp only [applyLedgerOps] at h
      split at h
      · next s2 hop => exact (ih s2 s' h).trans (applyLedgerOp_bank_data s s2 op hop)
      · exact absurd h (by simp)

/-! ### Claim C1 -/

/-- C1 (amended): for every item that the bank snapshot records (with raw
quantity `amount`), after any sequence of reserve/update/clear ledger calls
the availability reported by `get_amount_of_item_in_bank` equals the raw
quantity minus the sum of all active reservations for that item over all
holders.  (For an item absent from the snapshot the source reports plain `0`
regardless of reservations — see the counterexample.) -/
theorem bank_availability_after_ledger_ops
    (ops : List LedgerOp) (s s' : BankState) (item : String) (amount : Int)
    (hbank : dictGet item s.bank_data = some amount)
    (hops : applyLedgerOps s ops = .ok s') :
    get_amount_of_item_in_bank s' item =
      amount - get_amount_of_item_reserved_in_bank s' item := by
  have hbd : s'.bank_data = s.bank_data := applyLedgerOps_bank_data ops s s' hops
  unfold get_amount_of_item_in_bank
  rw [hbd, hbank]

/-- C1 counterexample: the claim as stated fails for an item that has active
reservations but is absent from the bank snapshot.  With an empty bank,
reserving 30 iron_ore for alice makes the reported availability `0`, not
`raw − Σ reservations = 0 − 30`. -/
theorem bank_availability_identity_fails_for_unsnapshotted_item :
    get_amount_of_item_in_bank (set_bank_reservation ⟨[], []⟩ "alice" "iron_ore" 30) "iron_ore"
        = 0 ∧
    get_amount_of_item_reserved_in_bank
        (set_bank_reservation ⟨[], []⟩ "alice" "iron_ore" 30) "iron_ore" = 30 ∧
    dictGet "iron_ore" (set_bank_reservation ⟨[], []⟩ "alice" "iron_ore" 30).bank_data
        = none ∧
    get_amount_of_item_in_bank (set_bank_reservation ⟨[], []⟩ "alice" "iron_ore" 30) "iron_ore"
        ≠ (0 : Int) - get_amount_of_item_reserved_in_bank
            (set_bank_reservation ⟨[], []⟩ "alice" "iron_ore" 30) "iron_ore" := by
  refine ⟨by decide, by decide, by decide, by decide⟩

/-- C1 witness: the spec's concrete scenario.  Raw copper_ore = 100; holder
h1 reserves 30, holder h2 reserves 20, then h1's reservation is cleared.  The
amended identity is applied at each stage, and evaluating the reservation
sums gives availability 70, then 50, then 80. -/
theorem bank_availability_after_ledger_ops_witness :
    (applyLedgerOps ⟨[("copper_ore", 100)], []⟩ [.reserve "h1" "copper_ore" 30] =
        .ok ⟨[("copper_ore", 100)], [("h1", [("copper_ore", 30)])]⟩) ∧
    get_amount_of_item_in_bank ⟨[("copper_ore", 100)], [("h1", [("copper_ore", 30)])]⟩
        "copper_ore" = 100 - get_amount_of_item_reserved_in_bank
          ⟨[("copper_ore", 100)], [("h1", [("copper_ore", 30)])]⟩ "copper_ore" ∧
    get_amount_of_item_in_bank ⟨[("copper_ore", 100)], [("h1", [("copper_ore", 30)])]⟩
        "copper_ore" = 70 ∧
    (applyLedgerOps ⟨[("copper_ore", 100)], []⟩
        [.reserve "h1" "copper_ore" 30, .reserve "h2" "copper_ore" 20] =
        .ok ⟨[("copper_ore", 100)],
             [("h1", [("copper_ore", 30)]), ("h2", [("copper_ore", 20)])]⟩) ∧
    get_amount_of_item_in_bank
        ⟨[("copper_ore", 100)], [("h1", [("copper_ore", 30)]), ("h2", [("copper_ore", 20)])]⟩
        "copper_ore" = 100 - get_amount_of_item_reserved_in_bank
          ⟨[("copper_ore", 100)], [("h1", [("copper_ore", 30)]), ("h2", [("copper_ore", 20)])]⟩
          "copper_ore" ∧
    get_amount_of_item_in_bank
        ⟨[("copper_ore", 100)], [("h1", [("copper_ore", 30)]), ("h2", [("copper_ore", 20)])]⟩
        "copper_ore" = 50 ∧
    (applyLedgerOps ⟨[("copper_ore", 100)], []⟩
        [.reserve "h1" "copper_ore" 30, .reserve "h2" "copper_ore" 20,
         .clear "h1" none] =
        .ok ⟨[("copper_ore", 100)], [("h2", [("copper_ore", 20)])]⟩) ∧
    get_amount_of_item_in_bank ⟨[("copper_ore", 100)], [("h2", [("copper_ore", 20)])]⟩
        "copper_ore" = 100 - get_amount_of_item_reserved_in_bank
          ⟨[("copper_ore", 100)], [("h2", [("copper_ore", 20)])]⟩ "copper_ore" ∧
    get_amount_of_item_in_bank ⟨[("copper_ore", 100)], [("h2", [("copper_ore", 20)])]⟩
        "copper_ore" = 80 :=
  ⟨rfl,
   bank_availability_after_ledger_ops [.reserve "h1" "copper_ore" 30]
     ⟨[("copper_ore", 100)], []⟩ _ "copper_ore" 100 (by decide) rfl,
   by decide,
   rfl,
   bank_availability_after_ledger_ops
     [.reserve "h1" "copper_ore" 30, .reserve "h2" "copper_ore" 20]
     ⟨[("copper_ore", 100)], []⟩ _ "copper_ore" 100 (by decide) rfl,
   by decide,
   rfl,
   bank_availability_after_ledger_ops
     [.reserve "h1" "copper_ore" 30, .reserve "h2" "copper_ore" 20, .clear "h1" none]
     ⟨[("copper_ore", 100)], []⟩ _ "copper_ore" 100 (by decide) rfl,
   by decide⟩

/-! ### Claim C5 -/

/-- C5 (amended): updating a bank reservation that does not exist is fatal in
both cases (holder without a ledger entry, or holder without an entry for
that item); clearing is fatal only when the holder has a nonempty ledger
entry that lacks the item — clearing when the holder has no (or an empty)
entry silently does nothing and returns the state unchanged. -/
theorem missing_reservation_update_fatal_clear_lenient :
    (∀ (s : BankState) (c i : String) (d : Int),
        dictGet i ((dictGet c s.bank_reservations).getD []) = none →
        exceptOk (update_bank_reservation s c i d) = false) ∧
    (∀ (s : BankState) (c i : String),
        (dictGet c s.bank_reservations).getD [] ≠ [] →
        i ≠ "" →
        dictGet i ((dictGet c s.bank_reservations).getD []) = none →
        exceptOk (clear_bank_reservation s c (some i)) = false) ∧
    (∀ (s : BankState) (c : String) (i : Option String),
        (dictGet c s.bank_reservations).getD [] = [] →
        clear_bank_reservation s c i = .ok s) := by
  refine ⟨?_, ?_, ?_⟩
  · intro s c i d h
    simp [update_bank_reservation, h, exceptOk]
  · intro s c i hne hi h
    simp [clear_bank_reservation, hne, hi, h, exceptOk]
  · intro s c i h
    unfold clear_bank_reservation
    rw [if_pos h]

/-- C5 counterexample: clearing a reservation that does not exist is NOT
always fatal.  With an empty ledger (alice has no ledger entry at all),
clearing alice's iron_ore reservation silently succeeds and leaves the state
unchanged instead of raising. -/
theorem clear_missing_reservation_not_fatal_for_absent_holder :
    clear_bank_reservation ⟨[], []⟩ "alice" (some "iron_ore") = .ok ⟨[], []⟩ ∧
    exceptOk (clear_bank_reservation ⟨[], []⟩ "alice" (some "iron_ore")) = true :=
  ⟨rfl, by decide⟩

/-- C5 witness: the amended behaviors at concrete inputs.  Updating bob's
missing copper_ore reservation errors whether bob has no entry or only an
iron_ore entry; clearing copper_ore from a holder that only reserved
iron_ore errors; clearing anything from a holder with no entry succeeds
silently. -/
theorem missing_reservation_update_fatal_clear_lenient_witness :
    exceptOk (update_bank_reservation ⟨[], []⟩ "bob" "copper_ore" 5) = false ∧
    exceptOk (update_bank_reservation ⟨[], [("bob", [("iron_ore", 3)])]⟩
        "bob" "copper_ore" 5) = false ∧
    exceptOk (clear_bank_reservation ⟨[], [("bob", [("iron_ore", 3)])]⟩
        "bob" (some "copper_ore")) = false ∧
    clear_bank_reservation ⟨[], []⟩ "bob" (some "copper_ore") = .ok ⟨[], []⟩ :=
  ⟨missing_reservation_update_fatal_clear_lenient.1 ⟨[], []⟩ "bob" "copper_ore" 5
     (by decide),
   missing_reservation_update_fatal_clear_lenient.1 ⟨[], [("bob", [("iron_ore", 3)])]⟩
     "bob" "copper_ore" 5 (by decide),
   missing_reservation_update_fatal_clear_lenient.2.1 ⟨[], [("bob", [("iron_ore", 3)])]⟩
     "bob" "copper_ore" (by decide) (by decide) (by decide),
   missing_reservation_update_fatal_clear_lenient.2.2 ⟨[], []⟩ "bob" (some "copper_ore")
     (by decide)⟩

/-! ### Claim C10 -/

/-- C10: reservations are keyed by (holder, item): creating a reservation
when the holder already has one for the same item replaces the entry with the
new quantity rather than adding to it.  This holds for the raw
`set_bank_reservation` call and for the `CREATE_ITEM_RESERVATION` meta
action, and starting from an empty ledger the total amount reserved after
two consecutive creations with quantities q1 then q2 is exactly q2. -/
theorem set_bank_reservation_replaces :
    (∀ (s : BankState) (c i : String) (q1 q2 : Int),
        dictGet i ((dictGet c
            (set_bank_reservation (set_bank_reservation s c i q1) c i q2).bank_reservations
          ).getD []) = some q2) ∧
    (∀ (s : BankState) (c i : String) (q1 q2 : Int),
        dictGet i ((dictGet c
            (create_item_reservation (create_item_reservation s c [(i, q1)]) c [(i, q2)]
              ).bank_reservations).getD []) = some q2) ∧
    (∀ (bank : List (String × Int)) (c i : String) (q1 q2 : Int),
        get_amount_of_item_reserved_in_bank
          (create_item_reservation (create_item_reservation ⟨bank, []⟩ c [(i, q1)])
            c [(i, q2)]) i = q2) := by
  have hset : ∀ (s : BankState) (c i : String) (q1 q2 : Int),
      dictGet i ((dictGet c
          (set_bank_reservation (set_bank_reservation s c i q1) c i q2).bank_reservations
        ).getD []) = some q2 := by
    intro s c i q1 q2
    unfold set_bank_reservation
    simp only [dictGet_dictInsert_self, Option.getD_some]
  refine ⟨hset, ?_, ?_⟩
  · intro s c i q1 q2
    simpa [create_item_reservation] using hset s c i q1 q2
  · intro bank c i q1 q2
    simp [create_item_reservation, set_bank_reservation, dictGet, dictInsert,
      get_amount_of_item_reserved_in_bank, reservedInList]

/-! ## Enumerations (src/action.py) -/

/-- `CharacterAction` (src/action.py): remote actions performed via the API. -/
inductive CharacterAction where
  | MOVE | FIGHT | REST | GATHER | CRAFT
  | BANK_DEPOSIT_ITEM | BANK_DEPOSIT_GOLD | BANK_WITHDRAW_ITEM | BANK_WITHDRAW_GOLD
  | EQUIP | UNEQUIP | USE
  | GET_TASK | COMPLETE_TASK | CANCEL_TASK | TASK_EXCHANGE | TASK_TRADE
  deriving Repr, DecidableEq

/-- `MetaAction` (src/action.py): pure bookkeeping actions. -/
inductive MetaAction where
  | CREATE_ITEM_RESERVATION | UPDATE_ITEM_RESERVATION | CLEAR_ITEM_RESERVATION
  deriving Repr, DecidableEq

/-- `ActionOutcome` (src/action.py): the 5-way classification of a remote
action's result. -/
inductive ActionOutcome where
  | SUCCESS | FAIL | FAIL_RETRY | FAIL_CONTINUE | CANCEL
  deriving Repr, DecidableEq

/-- `LogicalOperator` (src/action.py). -/
inductive LogicalOperator where
  | AND | OR | NOT
  deriving Repr, DecidableEq

/-- `ControlOperator`: the operators the executor's
`_process_control_node` dispatches on and the control factories construct
(src/scheduler.py, src/control_factories.py).  The enum in src/action.py
spells the loop operator `REPEAT` in an older shape; the executor and the
factories — the richest revision — use `IF`/`WHILE`/`DO_WHILE`/`TRY`. -/
inductive ControlOperator where
  | IF | WHILE | DO_WHILE | TRY
  deriving Repr, DecidableEq

/-- `ActionCondition` (src/action.py): tags for condition-expression leaves. -/
inductive ActionCondition where
  | NONE
  | INVENTORY_FULL
  | INVENTORY_EMPTY
  | INVENTORY_HAS_AVAILABLE_SPACE
  | INVENTORY_HAS_AVAILABLE_SPACE_FOR_ITEMS
  | BANK_HAS_ITEM_OF_QUANTITY
  | INVENTORY_HAS_ITEM_OF_QUANTITY
  | BANK_AND_INVENTORY_HAVE_ITEM_OF_QUANTITY
  | INVENTORY_CONTAINS_USABLE_FOOD
  | HEALTH_LOW_ENOUGH_TO_EAT
  | ITEMS_IN_EQUIP_QUEUE
  | RESOURCE_FROM_GATHERING
  | RESOURCE_FROM_FIGHTING
  | HAS_TASK
  | HAS_TASK_OF_TYPE
  | TASK_COMPLETE
  | HAS_SKILL_LEVEL
  | FOREVER
  deriving Repr, DecidableEq

/-- A parameter value in a `params`/`parameters` map.  The source stores
heterogeneous values (strings, ints, item lists, item-code lists); deferred
`ContextValue`/`DeferredExpr` wrappers are modelled post-resolution. -/
inductive ParamValue where
  | str (s : String)
  | int (n : Int)
  | items (l : List (String × Int))
  | codes (l : List String)
  deriving Repr, DecidableEq

/-! ## Condition expressions (src/action.py: ActionConditionExpression) -/

/-- The raw field content of the frozen dataclass
`ActionConditionExpression`: an operator, a condition tag, a parameter map
and a child list. -/
inductive ActionConditionExpression where
  | mk (operator : Option LogicalOperator) (condition : Option ActionCondition)
      (parameters : List (String × ParamValue))
      (children : List ActionConditionExpression)

def ActionConditionExpression.operator : ActionConditionExpression → Option LogicalOperator
  | .mk op _ _ _ => op

def ActionConditionExpression.condition : ActionConditionExpression → Option ActionCondition
  | .mk _ cond _ _ => cond

def ActionConditionExpression.parameters :
    ActionConditionExpression → List (String × ParamValue)
  | .mk _ _ params _ => params

def ActionConditionExpression.children :
    ActionConditionExpression → List ActionConditionExpression
  | .mk _ _ _ children => children

/-- `ActionConditionExpression.is_leaf`: `self.condition is not None`. -/
def ActionConditionExpression.is_leaf (e : ActionConditionExpression) : Bool :=
  e.condition.isSome

/-- `ActionConditionExpression.__post_init__` as a fallible constructor.  An
enum member is always truthy, so `if self.operator:` tests presence; a failed
`assert` is an `AssertionError` at construction time, modelled as `.error`.
`self.children and len(self.children) == 1` is modelled as
`children.isEmpty = false ∧ children.length = 1`. -/
def mkActionConditionExpression (operator : Option LogicalOperator)
    (condition : Option ActionCondition) (parameters : List (String × ParamValue))
    (children : List ActionConditionExpression) :
    Except String ActionConditionExpression :=
  match operator with
  | some op =>
      if condition.isSome then
        .error "assert self.condition is None"
      else if op = .NOT then
        if children.isEmpty = false ∧ children.length = 1 then
          .ok (.mk operator condition parameters children)
        else
          .error "assert self.children and len(self.children) == 1"
      else
        if children.isEmpty = false ∧ 2 ≤ children.length then
          .ok (.mk operator condition parameters children)
        else
          .error "assert self.children and len(self.children) >= 2"
  | none =>
      if condition.isNone then
        .error "assert self.condition is not None"
      else if children.isEmpty = false then
        .error "assert not self.children"
      else
        .ok (.mk operator condition parameters children)

/-! ### Claim C9 -/

/-- C9: construction-time validation of condition expressions — an
expression with both a condition tag and children fails; an AND/OR node with
fewer than 2 children fails; a NOT node with other than 1 child fails; and an
expression is constructible exactly when it is a leaf (condition tag, no
children, no operator) or an operator node (operator, no condition, correct
child arity). -/
theorem condition_expression_construction_invariant :
    (∀ (cond : ActionCondition) (params : List (String × ParamValue))
        (children : List ActionConditionExpression), children ≠ [] →
        exceptOk (mkActionConditionExpression none (some cond) params children) = false) ∧
    (∀ (op : LogicalOperator) (cond : Option ActionCondition)
        (params : List (String × ParamValue)) (children : List ActionConditionExpression),
        (op = .AND ∨ op = .OR) → children.length < 2 →
        exceptOk (mkActionConditionExpression (some op) cond params children) = false) ∧
    (∀ (cond : Option ActionCondition) (params : List (String × ParamValue))
        (children : List ActionConditionExpression), children.length ≠ 1 →
        exceptOk (mkActionConditionExpression (some .NOT) cond params children) = false) ∧
    (∀ (op : Option LogicalOperator) (cond : Option ActionCondition)
        (params : List (String × ParamValue)) (children : List ActionConditionExpression),
        exceptOk (mkActionConditionExpression op cond params children) = true ↔
          ((op = none ∧ cond.isSome ∧ children = []) ∨
           (∃ o, op = some o ∧ cond = none ∧
             (if o = .NOT then children.length = 1 else 2 ≤ children.length)))) := by
  have characterization : ∀ (op : Option LogicalOperator) (cond : Option ActionCondition)
      (params : List (String × ParamValue)) (children : List ActionConditionExpression),
      exceptOk (mkActionConditionExpression op cond params children) = true ↔
        ((op = none ∧ cond.isSome ∧ children = []) ∨
         (∃ o, op = some o ∧ cond = none ∧
           (if o = .NOT then children.length = 1 else 2 ≤ children.length))) := by
    intro op cond params children
    cases op with
    | none =>
        cases cond with
        | none => simp [mkActionConditionExpression, exceptOk]
        | some c =>
            cases children with
            | nil => simp [mkActionConditionExpression, exceptOk]
            | cons a t => simp [mkActionConditionExpression, exceptOk]
    | some o =>
        cases cond with
        | some c => cases o <;> simp [mkActionConditionExpression, exceptOk]
        | none =>
            cases o with
            | NOT =>
                cases children with
                | nil => simp [mkActionConditionExpression, exceptOk]
                | cons a t =>
                    cases t with
                    | nil => simp [mkActionConditionExpression, exceptOk]
                    | cons b u => simp [mkActionConditionExpression, exceptOk]
            | AND =>
                cases children with
                | nil => simp [mkActionConditionExpression, exceptOk]
                | cons a t =>
                    cases t with
                    | nil => simp [mkActionConditionExpression, exceptOk]
                    | cons b u =>
                        simp [mkActionConditionExpression, exceptOk, Nat.le_add_left]
            | OR =>
                cases children with
                | nil => simp [mkActionConditionExpression, exceptOk]
                | cons a t =>
                    cases t with
                    | nil => simp [mkActionConditionExpression, exceptOk]
                    | cons b u =>
                        simp [mkActionConditionExpression, exceptOk, Nat.le_add_left]
  refine ⟨?_, ?_, ?_, characterization⟩
  · intro cond params children h
    rw [← Bool.not_eq_true, characterization]
    rintro (⟨_, _, hnil⟩ | ⟨o, hop, _⟩)
    · exact h hnil
    · exact Option.noConfusion hop
  · intro op cond params children hop hlen
    rw [← Bool.not_eq_true, characterization]
    rintro (⟨hnone, _, _⟩ | ⟨o, hsome, _, harity⟩)
    · exact Option.noConfusion hnone
    · cases hsome
      rcases hop with rfl | rfl <;> simp at harity <;> omega
  · intro cond params children hlen
    rw [← Bool.not_eq_true, characterization]
    rintro (⟨hnone, _, _⟩ | ⟨o, hsome, _, harity⟩)
    · exact Option.noConfusion hnone
    · cases hsome
      simp at harity
      exact hlen harity

/-- C9 witness: the invariant at concrete inputs — a node with both a
condition and a child fails; an AND node with one child fails; a NOT node
with two children fails; and a well-formed leaf and a well-formed NOT node
construct successfully (via the characterization). -/
theorem condition_expression_construction_invariant_witness :
    exceptOk (mkActionConditionExpression none (some .INVENTORY_FULL) []
        [.mk none (some .FOREVER) [] []]) = false ∧
    exceptOk (mkActionConditionExpression (some .AND) none []
        [.mk none (some .FOREVER) [] []]) = false ∧
    exceptOk (mkActionConditionExpression (some .NOT) none []
        [.mk none (some .FOREVER) [] [], .mk none (some .FOREVER) [] []]) = false ∧
    exceptOk (mkActionConditionExpression none (some .FOREVER) [] []) = true ∧
    exceptOk (mkActionConditionExpression (some .NOT) none []
        [.mk none (some .FOREVER) [] []]) = true :=
  ⟨condition_expression_construction_invariant.1 .INVENTORY_FULL []
     [.mk none (some .FOREVER) [] []] (by simp),
   condition_expression_construction_invariant.2.1 .AND none []
     [.mk none (some .FOREVER) [] []] (Or.inl rfl) (by simp),
   condition_expression_construction_invariant.2.2.1 none []
     [.mk none (some .FOREVER) [] [], .mk none (some .FOREVER) [] []] (by simp),
   (condition_expression_construction_invariant.2.2.2 none (some .FOREVER) [] []).mpr
     (Or.inl ⟨rfl, rfl, rfl⟩),
   (condition_expression_construction_invariant.2.2.2 (some .NOT) none []
       [.mk none (some .FOREVER) [] []]).mpr
     (Or.inr ⟨.NOT, rfl, rfl, by simp⟩)⟩

/-! ## Executor state and collaborators (src/scheduler.py)

The executor mutates one agent's fields plus the shared world state.  The
external collaborators are oracles:

* `outcomes n` — the classified outcome of the (n+1)-th remote
  `agent.perform` call (the API client and per-status mapping are out of
  scope per the spec);
* `sig n` — whether an external abort request has arrived by the time of the
  (n+1)-th read of `agent.abort_actions` (the flag is set from outside the
  worker, e.g. by the CLI, so each read samples it afresh);
* `conds tag params s` — the character/world predicate behind a non-FOREVER
  condition leaf (methods of `CharacterAgent`, out of scope).

`asyncio.sleep d` advances the model clock `now` by `d`. -/

structure EngineState where
  /-- `agent.name`. -/
  name : String
  /-- `agent.abort_actions`, as of the last read. -/
  abort_actions : Bool
  /-- `agent.cooldown_expires_at`. -/
  cooldown_expires_at : Int
  /-- The current time `time.time()`. -/
  now : Int
  /-- Number of remote `agent.perform` calls issued so far. -/
  callCount : Nat
  /-- Number of reads of `agent.abort_actions` so far. -/
  checkIdx : Nat
  /-- The shared `WorldState` bank portion. -/
  world : BankState
  deriving Repr, DecidableEq

structure Collaborators where
  sig : Nat → Bool
  outcomes : Nat → ActionOutcome
  conds : ActionCondition → List (String × ParamValue) → EngineState → Bool

/-- Observable steps of one worker, in chronological order. -/
inductive Event where
  /-- `await asyncio.sleep duration`, entered at time `startedAt`. -/
  | sleep (duration : Int) (startedAt : Int)
  /-- `await agent.perform(action)`: the `callIdx`-th remote call, guarded by
  the `guardIdx`-th abort-flag read, issued at `time`. -/
  | remoteCall (callIdx : Nat) (guardIdx : Nat) (time : Int)
  /-- `await agent.meta_perform(action)`. -/
  | metaCall (m : MetaAction)
  deriving Repr, DecidableEq

/-- One read of `agent.abort_actions`: the externally mutated flag is true if
it was already observed true or an external request has arrived by this read. -/
def abortRead (env : Collaborators) (s : EngineState) : Bool × EngineState :=
  let v := s.abort_actions || env.sig s.checkIdx
  (v, { s with abort_actions := v, checkIdx := s.checkIdx + 1 })

/-! ## Condition evaluation (ActionScheduler._evaluate_condition) -/

/-- The leaf dispatch of `_evaluate_condition`: `FOREVER` is the constant
true condition (`condition_met = True`); every other tag dispatches to a
character/world predicate, abstracted by the `conds` oracle. -/
def evaluate_leaf_condition (env : Collaborators) (s : EngineState)
    (e : ActionConditionExpression) : Bool :=
  match e.condition with
  | some .FOREVER => true
  | some c => env.conds c e.parameters s
  | none => false

/-- The recursive body of `_evaluate_condition` on a full expression tree:
leaves dispatch as above; `AND` is `all`, `OR` is `any`, `NOT` negates
`children[0]` (the source would raise an `IndexError` on a childless NOT
node, which construction-time validation rules out; that dead branch is
`false` here), and a non-leaf without a recognised operator raises (also
unreachable for validated expressions). -/
def evaluate_condition_tree (env : Collaborators) (s : EngineState) :
    ActionConditionExpression → Bool
  | e@(.mk operator cond _params children) =>
      if cond.isSome then evaluate_leaf_condition env s e
      else
        match operator with
        | some .AND => children.attach.all (fun c => evaluate_condition_tree env s c.1)
        | some .OR => children.attach.any (fun c => evaluate_condition_tree env s c.1)
        | some .NOT =>
            match children.attach with
            | c :: _ => !(evaluate_condition_tree env s c.1)
            | [] => false
        | none => false
termination_by e => sizeOf e
decreasing_by
  all_goals (simp_wf; have := List.sizeOf_lt_of_mem c.2; omega)

/-- `ActionScheduler._evaluate_condition`: a null/absent expression evaluates
to true (`if not expression: return True`); otherwise the tree is evaluated. -/
def evaluate_condition (env : Collaborators) (s : EngineState) :
    Option ActionConditionExpression → Bool
  | none => true
  | some e =>
      if e.is_leaf then evaluate_leaf_condition env s e
      else evaluate_condition_tree env s e

/-! ## Plan nodes (src/action.py node classes, src/control_factories.py) -/

inductive ActionType where
  | character (a : CharacterAction)
  | meta (m : MetaAction)
  deriving Repr, DecidableEq

/-- The `Action` dataclass.  `params` values are modelled post-resolution
(the executor resolves `ContextValue`/`DeferredExpr` wrappers in place before
dispatching); `until` is present on the dataclass but never read by the
executor. -/
structure Action where
  type : ActionType
  params : List (String × ParamValue)
  untilCond : Option ActionConditionExpression

/-- The plan-node tagged union the executor walks: `Action`, `ActionGroup`
(fields `actions`, `until`), `ActionControlNode` (all optional fields of the
dataclass; a `branches`/`until` of Python `None` is modelled as `[]`/`none`),
and the deferred node whose `resolver` maps the agent to a concrete node. -/
inductive PlanNode where
  | action (a : Action)
  | group (actions : List PlanNode) (untilCond : Option ActionConditionExpression)
  | control (control_operator : ControlOperator)
      (branches : List (Option ActionConditionExpression × PlanNode))
      (fail_path : Option PlanNode)
      (node : Option PlanNode)
      (condition : Option ActionConditionExpression)
      (success_path : Option PlanNode)
      (error_path : Option PlanNode)
      (finally_path : Option PlanNode)
  | deferred (resolver : EngineState → PlanNode)

/-- Control factory `IF` (src/control_factories.py). -/
def IF (branches : List (Option ActionConditionExpression × PlanNode))
    (fail_path : Option PlanNode) : PlanNode :=
  .control .IF branches fail_path none none none none none

/-- Control factory `WHILE` (src/control_factories.py). -/
def WHILE (node : PlanNode) (condition : ActionConditionExpression) : PlanNode :=
  .control .WHILE [] none (some node) (some condition) none none none

/-- Control factory `DO_WHILE` (src/control_factories.py). -/
def DO_WHILE (node : PlanNode) (condition : ActionConditionExpression) : PlanNode :=
  .control .DO_WHILE [] none (some node) (some condition) none none none

/-- Control factory `TRY` (src/control_factories.py). -/
def TRY (node : PlanNode) (success_path error_path finally_path : Option PlanNode) :
    PlanNode :=
  .control .TRY [] none (some node) none success_path error_path finally_path

/-! ## The executor (ActionScheduler, src/scheduler.py) -/

/-- Result of processing a node: a boolean success with the final state and
the chronological event trace, an unhandled Python exception (`crash`), or
fuel exhaustion (`fuelOut`), which models nontermination. -/
inductive RunResult where
  | ok (success : Bool) (s : EngineState) (trace : List Event)
  | crash (msg : String)
  | fuelOut
  deriving Repr, DecidableEq

/-- `retry_max = 3` in `_process_single_character_action`. -/
def retry_max : Nat := 3

/-- How one iteration of `_process_single_character_action`'s `while True:`
loop ended: the abort flag was found set (return failure without the call),
the outcome classification returned (`done`), or the outcome was
`FAIL_RETRY`, leaving the retry bookkeeping to the loop (`wantRetry`). -/
inductive AttemptResult where
  | aborted (s : EngineState) (events : List Event)
  | done (success : Bool) (s : EngineState) (events : List Event)
  | wantRetry (s : EngineState) (events : List Event)
  deriving Repr, DecidableEq

/-- One iteration of the `while True:` body of
`ActionScheduler._process_single_character_action`, up to the retry
bookkeeping: wait out `max(0, cooldown_expires_at − now)`, re-read the abort
flag (`aborted` if set), issue the remote call, then classify:
SUCCESS/FAIL_CONTINUE/CANCEL → done true, FAIL → done false, FAIL_RETRY →
`wantRetry`. -/
def attempt_once (env : Collaborators) (s : EngineState) : AttemptResult :=
  let remaining_cooldown : Int := max 0 (s.cooldown_expires_at - s.now)
  let sleepEvents :=
    if 0 < remaining_cooldown then [Event.sleep remaining_cooldown s.now] else []
  let s1 := if 0 < remaining_cooldown then { s with now := s.now + remaining_cooldown }
    else s
  let guardIdx := s1.checkIdx
  let (aborted, s2) := abortRead env s1
  if aborted then .aborted s2 sleepEvents
  else
    let outcome := env.outcomes s2.callCount
    let callEvent := Event.remoteCall s2.callCount guardIdx s2.now
    let s3 := { s2 with callCount := s2.callCount + 1 }
    match outcome with
    | .SUCCESS => .done true s3 (sleepEvents ++ [callEvent])
    | .FAIL => .done false s3 (sleepEvents ++ [callEvent])
    | .FAIL_RETRY => .wantRetry s3 (sleepEvents ++ [callEvent])
    | .FAIL_CONTINUE => .done true s3 (sleepEvents ++ [callEvent])
    | .CANCEL => .done true s3 (sleepEvents ++ [callEvent])

/-- The iteration of `_process_single_character_action`'s loop on which the
retry budget is exhausted (`retry_count + 1 >= retry_max` after a
`FAIL_RETRY`): the attempt runs, but a further `FAIL_RETRY` hardens to
failure instead of looping. -/
def attempt_exhausted (env : Collaborators) (s : EngineState) :
    Bool × EngineState × List Event :=
  match attempt_once env s with
  | .aborted s2 es => (false, s2, es)
  | .done r s3 es => (r, s3, es)
  | .wantRetry s3 es => (false, s3, es)

/-- `ActionScheduler._process_single_character_action`.  The source loops
with `retry_count` counting up (`retry_count += 1; if retry_count >=
retry_max: fail`); for structural recursion we count
`attemptsLeft = retry_max − retry_count` down, so the guard becomes
`attemptsLeft ≤ 1` and the entry point is `attemptsLeft = retry_max`.  On
`FAIL_RETRY` with attempts remaining: `await asyncio.sleep(1)` and loop;
exhausted attempts harden to failure (`attempt_exhausted`). -/
def character_action_attempts (env : Collaborators) :
    Nat → EngineState → Bool × EngineState × List Event
  | 0, s => attempt_exhausted env s
  | 1, s => attempt_exhausted env s
  | al + 2, s =>
      match attempt_once env s with
      | .aborted s2 es => (false, s2, es)
      | .done r s3 es => (r, s3, es)
      | .wantRetry s3 es =>
          let rec2 :=
            character_action_attempts env (al + 1) { s3 with now := s3.now + 1 }
          (rec2.1, rec2.2.1, es ++ [Event.sleep 1 s3.now] ++ rec2.2.2)

/-- `CharacterAgent.meta_perform` (src/character.py) for the three
reservation meta actions of src/action.py's `MetaAction`, acting on the
shared bank state.  A missing or ill-typed `items` parameter is a `TypeError`
in the source; `CLEAR_ITEM_RESERVATION` accepts dict items (clearing by their
`code`) or plain item-code strings. -/
def meta_perform (w : BankState) (name : String) (m : MetaAction)
    (params : List (String × ParamValue)) : Except String (BankState × ActionOutcome) :=
  match m with
  | .CREATE_ITEM_RESERVATION =>
      match dictGet "items" params with
      | some (.items items) => .ok (create_item_reservation w name items, .SUCCESS)
      | _ => .error "TypeError: CREATE_ITEM_RESERVATION requires an items parameter"
  | .UPDATE_ITEM_RESERVATION =>
      match dictGet "items" params with
      | some (.items items) =>
          match items.foldlM (fun acc it => update_bank_reservation acc name it.1 it.2) w with
          | .ok w2 => .ok (w2, .SUCCESS)
          | .error e => .error e
      | _ => .error "TypeError: UPDATE_ITEM_RESERVATION requires an items parameter"
  | .CLEAR_ITEM_RESERVATION =>
      match dictGet "items" params with
      | some (.items items) =>
          match items.foldlM (fun acc it => clear_bank_reservation acc name (some it.1)) w with
          | .ok w2 => .ok (w2, .SUCCESS)
          | .error e => .error e
      | some (.codes items) =>
          match items.foldlM (fun acc it => clear_bank_reservation acc name (some it)) w with
          | .ok w2 => .ok (w2, .SUCCESS)
          | .error e => .error e
      | _ => .error "TypeError: CLEAR_ITEM_RESERVATION requires an items parameter"

/-- `ActionScheduler._process_single_meta_action`: abort check, then
`meta_perform`; SUCCESS → true, FAIL → false, anything else raises. -/
def process_single_meta_action (env : Collaborators) (s : EngineState) (m : MetaAction)
    (params : List (String × ParamValue)) : RunResult :=
  let (aborted, s1) := abortRead env s
  if aborted then .ok false s1 []
  else
    match meta_perform s1.world s1.name m params with
    | .error e => .crash e
    | .ok (w2, outcome) =>
        match outcome with
        | .SUCCESS => .ok true { s1 with world := w2 } [Event.metaCall m]
        | .FAIL => .ok false { s1 with world := w2 } [Event.metaCall m]
        | _ => .crash "Unknown action outcome for MetaAction"

/-- The child loop of `ActionScheduler._process_group`: children in order
via the recursive `process` (`rec`), abandoning the remaining siblings on the
first failure. -/
def run_group_actions (rec : EngineState → PlanNode → RunResult) :
    EngineState → List PlanNode → RunResult
  | s, [] => .ok true s []
  | s, sub_action :: rest =>
      match rec s sub_action with
      | .ok true s1 es1 =>
          match run_group_actions rec s1 rest with
          | .ok r s2 es2 => .ok r s2 (es1 ++ es2)
          | o => o
      | .ok false s1 es1 => .ok false s1 es1
      | o => o

/-- The first-matching-branch scan of
`ActionScheduler._evaluate_control_branches`: the plan of the first branch
whose condition holds, else `fail_path`. -/
def evaluate_control_branches (env : Collaborators) (s : EngineState) :
    List (Option ActionConditionExpression × PlanNode) → Option PlanNode → Option PlanNode
  | [], fail_path => fail_path
  | b :: rest, fail_path =>
      if evaluate_condition env s b.1 then some b.2
      else evaluate_control_branches env s rest fail_path

/-- The WHILE loop of `_process_control_node`: re-check the condition before
every iteration; a failing body stops the loop and propagates failure; zero
iterations yield success.  A `None` body raises inside `_process_node` once
the loop is entered.  The loop's own `fuel` bounds the number of iterations
we can observe; running out is `fuelOut` (the source would still be looping). -/
def run_while (env : Collaborators) (rec : EngineState → PlanNode → RunResult) :
    Nat → EngineState → Option PlanNode → Option ActionConditionExpression → RunResult
  | 0, _, _, _ => .fuelOut
  | fuel + 1, s, body, condition =>
      if evaluate_condition env s condition then
        match body with
        | none => .crash "Unrecognised node typing."
        | some b =>
            match rec s b with
            | .ok true s1 es1 =>
                match run_while env rec fuel s1 body condition with
                | .ok r s2 es2 => .ok r s2 (es1 ++ es2)
                | o => o
            | .ok false s1 es1 => .ok false s1 es1
            | o => o
      else .ok true s []

/-- The DO_WHILE loop of `_process_control_node`: process the body once
unconditionally, stop with failure if it failed, otherwise repeat while the
condition still holds (checked after each iteration). -/
def run_do_while (env : Collaborators) (rec : EngineState → PlanNode → RunResult) :
    Nat → EngineState → Option PlanNode → Option ActionConditionExpression → RunResult
  | 0, _, _, _ => .fuelOut
  | fuel + 1, s, body, condition =>
      match body with
      | none => .crash "Unrecognised node typing."
      | some b =>
          match rec s b with
          | .ok true s1 es1 =>
              if !(evaluate_condition env s1 condition) then .ok true s1 es1
              else
                match run_do_while env rec fuel s1 body condition with
                | .ok r s2 es2 => .ok r s2 (es1 ++ es2)
                | o => o
          | .ok false s1 es1 => .ok false s1 es1
          | o => o

/-- One of the two conditional path steps after the body of the TRY case of
`_process_control_node`: `if result and success_path:` is the step with
`want = true`, `if not result and error_path:` the step with `want = false`.
When the running result matches `want` and the path exists, the path is
processed and its result replaces the running result. -/
def try_path_step (proc : EngineState → PlanNode → RunResult) (want : Bool)
    (path : Option PlanNode) : RunResult → RunResult
  | .ok r s es =>
      match path with
      | some p =>
          if r = want then
            match proc s p with
            | .ok r2 s2 es2 => .ok r2 s2 (es ++ es2)
            | o => o
          else .ok r s es
      | none => .ok r s es
  | o => o

/-- The unconditional `finally_path` step of the TRY case: if a finally path
exists it always runs, and its result replaces the running result. -/
def try_finally_step (proc : EngineState → PlanNode → RunResult)
    (path : Option PlanNode) : RunResult → RunResult
  | .ok r s es =>
      match path with
      | some p =>
          (match proc s p with
           | .ok r3 s3 es3 => .ok r3 s3 (es ++ es3)
           | o => o)
      | none => .ok r s es
  | o => o

/-- The three sequential conditionals after the body of the TRY case of
`_process_control_node`: run `success_path` if the body succeeded, then
`error_path` if the running result is a failure, then `finally_path`
unconditionally — each step's result replacing the running result. -/
def try_paths (proc : EngineState → PlanNode → RunResult) (result : Bool)
    (s : EngineState) (es : List Event)
    (success_path error_path finally_path : Option PlanNode) : RunResult :=
  try_finally_step proc finally_path
    (try_path_step proc false error_path
      (try_path_step proc true success_path (.ok result s es)))

/-- `ActionScheduler._process_node`: abort check first (returning failure
without touching the node if the flag is set), then dispatch on the node
kind.  Control nodes follow `_process_control_node`; a deferred node resolves
against the current agent state and recurses.  `fuel` only bounds recursion
depth and loop iterations; every run of the source that terminates is
reproduced exactly by any sufficiently large fuel. -/
def process_node (env : Collaborators) : Nat → EngineState → PlanNode → RunResult
  | 0, _, _ => .fuelOut
  | fuel + 1, s, node =>
      let (aborted, s1) := abortRead env s
      if aborted then .ok false s1 []
      else
        match node with
        | .action a =>
            match a.type with
            | .character _ =>
                let (r, s2, es) := character_action_attempts env retry_max s1
                .ok r s2 es
            | .meta m => process_single_meta_action env s1 m a.params
        | .group actions _ => run_group_actions (process_node env fuel) s1 actions
        | .control op branches fail_path cnode condition success_path error_path
            finally_path =>
            match op with
            | .IF =>
                match evaluate_control_branches env s1 branches fail_path with
                | some branch => process_node env fuel s1 branch
                | none => .ok true s1 []
            | .WHILE => run_while env (process_node env fuel) fuel s1 cnode condition
            | .DO_WHILE => run_do_while env (process_node env fuel) fuel s1 cnode condition
            | .TRY =>
                match cnode with
                | none => .crash "Unrecognised node typing."
                | some body =>
                    match process_node env fuel s1 body with
                    | .ok result s2 es2 =>
                        try_paths (process_node env fuel) result s2 es2 success_path
                          error_path finally_path
                    | o => o
        | .deferred resolver => process_node env fuel s1 (resolver s1)

/-- The tail of one `ActionScheduler._worker` iteration after popping a
node: process it, then read `agent.abort_actions`; if the flag was set during
processing, clear every bank reservation held by the character
(`clear_bank_reservation(agent.name)`) and unset the flag
(`agent.unset_abort_actions()`). -/
def worker_process_popped (env : Collaborators) (fuel : Nat) (s : EngineState)
    (node : PlanNode) : RunResult :=
  match process_node env fuel s node with
  | .ok success s1 es =>
      let (aborted, s2) := abortRead env s1
      if aborted then
        match clear_bank_reservation s2.world s2.name none with
        | .ok w2 => .ok success { s2 with world := w2, abort_actions := false } es
        | .error e => .crash e
      else .ok success s2 es
  | o => o


/-! ### Claim C8 -/

/-- C8: an ActionGroup's children are processed in order; on the first child
that fails the remaining children are never invoked (the group's result is
exactly the failing child's result, with no further events) and the group
returns failure; an empty group succeeds; a succeeding child hands the
updated state to the rest of the group. -/
theorem group_processes_in_order_fail_fast (env : Collaborators) :
    (∀ (fuel : Nat) (s : EngineState) (l : List PlanNode)
        (uc : Option ActionConditionExpression),
        s.abort_actions = false → env.sig s.checkIdx = false →
        process_node env (fuel + 1) s (.group l uc) =
          run_group_actions (process_node env fuel)
            { s with abort_actions := false, checkIdx := s.checkIdx + 1 } l) ∧
    (∀ (proc : EngineState → PlanNode → RunResult) (s : EngineState),
        run_group_actions proc s [] = .ok true s []) ∧
    (∀ (proc : EngineState → PlanNode → RunResult) (s : EngineState) (a : PlanNode)
        (rest : List PlanNode) (s1 : EngineState) (es : List Event),
        proc s a = .ok false s1 es →
        run_group_actions proc s (a :: rest) = .ok false s1 es) ∧
    (∀ (proc : EngineState → PlanNode → RunResult) (s : EngineState) (a : PlanNode)
        (rest : List PlanNode) (s1 : EngineState) (es : List Event),
        proc s a = .ok true s1 es →
        run_group_actions proc s (a :: rest) =
          match run_group_actions proc s1 rest with
          | .ok r s2 es2 => .ok r s2 (es ++ es2)
          | o => o) := by
  refine ⟨?_, ?_, ?_, ?_⟩
  · intro fuel s l uc habort hsig
    rw [process_node]
    simp [abortRead, habort, hsig]
  · intro proc s
    rw [run_group_actions]
  · intro proc s a rest s1 es h
    rw [run_group_actions, h]
  · intro proc s a rest s1 es h
    rw [run_group_actions, h]

/-- C8 witness: with remote outcomes SUCCESS for the first call and FAIL
afterwards, the group `[A, B, C]` of three remote actions stops at B: only
two remote calls appear in the trace (C is never invoked) and the group
reports failure; the fail-fast equation is applied at the state reached
after A. -/
theorem group_processes_in_order_fail_fast_witness :
    run_group_actions
        (process_node ⟨fun _ => false, fun n => if n = 0 then .SUCCESS else .FAIL,
          fun _ _ _ => false⟩ 1)
        ⟨"x", false, 0, 0, 1, 3, ⟨[], []⟩⟩
        [.action ⟨.character .MOVE, [], none⟩, .action ⟨.character .MOVE, [], none⟩] =
      .ok false ⟨"x", false, 0, 0, 2, 5, ⟨[], []⟩⟩ [.remoteCall 1 4 0] ∧
    process_node ⟨fun _ => false, fun n => if n = 0 then .SUCCESS else .FAIL,
        fun _ _ _ => false⟩ 2 ⟨"x", false, 0, 0, 0, 0, ⟨[], []⟩⟩
      (.group [.action ⟨.character .MOVE, [], none⟩, .action ⟨.character .MOVE, [], none⟩,
        .action ⟨.character .MOVE, [], none⟩] none) =
      .ok false ⟨"x", false, 0, 0, 2, 5, ⟨[], []⟩⟩
        [.remoteCall 0 2 0, .remoteCall 1 4 0] ∧
    run_group_actions
        (process_node ⟨fun _ => false, fun n => if n = 0 then .SUCCESS else .FAIL,
          fun _ _ _ => false⟩ 1)
        ⟨"y", false, 0, 0, 0, 0, ⟨[], []⟩⟩ [] =
      .ok true ⟨"y", false, 0, 0, 0, 0, ⟨[], []⟩⟩ [] :=
  ⟨(group_processes_in_order_fail_fast
      ⟨fun _ => false, fun n => if n = 0 then .SUCCESS else .FAIL,
        fun _ _ _ => false⟩).2.2.1 _ _ _ _ _ _ rfl,
   rfl,
   (group_processes_in_order_fail_fast
      ⟨fun _ => false, fun n => if n = 0 then .SUCCESS else .FAIL,
        fun _ _ _ => false⟩).2.1 _ ⟨"y", false, 0, 0, 0, 0, ⟨[], []⟩⟩⟩

/-! ### Claim C2 -/

/-- C2: whenever a TRY node has a `finally_path`, that path is processed
unconditionally last and its result is the node's final result, overriding
the body's and the success/error paths' results.  In particular a TRY whose
body succeeds but whose finally fails reports overall failure (regardless of
any error_path, which is skipped because the running result is success), and
a TRY whose body fails, has no error_path, and has a succeeding finally
(regardless of any success_path, skipped because the body failed) reports
overall success. -/
theorem try_finally_result_authoritative (env : Collaborators) :
    (∀ (fuel : Nat) (s : EngineState) (body f : PlanNode) (ep : Option PlanNode)
        (s1 s2 : EngineState) (es1 es2 : List Event),
        s.abort_actions = false → env.sig s.checkIdx = false →
        process_node env fuel
            { s with abort_actions := false, checkIdx := s.checkIdx + 1 } body =
          .ok true s1 es1 →
        process_node env fuel s1 f = .ok false s2 es2 →
        process_node env (fuel + 1) s (TRY body none ep (some f)) =
          .ok false s2 (es1 ++ es2)) ∧
    (∀ (fuel : Nat) (s : EngineState) (body f : PlanNode) (sp : Option PlanNode)
        (s1 s2 : EngineState) (es1 es2 : List Event),
        s.abort_actions = false → env.sig s.checkIdx = false →
        process_node env fuel
            { s with abort_actions := false, checkIdx := s.checkIdx + 1 } body =
          .ok false s1 es1 →
        process_node env fuel s1 f = .ok true s2 es2 →
        process_node env (fuel + 1) s (TRY body sp none (some f)) =
          .ok true s2 (es1 ++ es2)) ∧
    (∀ (fuel : Nat) (s : EngineState) (body f : PlanNode) (rb rf : Bool)
        (s1 s2 : EngineState) (es1 es2 : List Event),
        s.abort_actions = false → env.sig s.checkIdx = false →
        process_node env fuel
            { s with abort_actions := false, checkIdx := s.checkIdx + 1 } body =
          .ok rb s1 es1 →
        process_node env fuel s1 f = .ok rf s2 es2 →
        process_node env (fuel + 1) s (TRY body none none (some f)) =
          .ok rf s2 (es1 ++ es2)) := by
  refine ⟨?_, ?_, ?_⟩
  · intro fuel s body f ep s1 s2 es1 es2 habort hsig hbody hf
    rw [process_node]
    simp only [TRY, abortRead, habort, hsig, Bool.or_false, Bool.false_eq_true,
      if_false, hbody]
    cases ep <;> simp [try_paths, try_path_step, try_finally_step, hf]
  · intro fuel s body f sp s1 s2 es1 es2 habort hsig hbody hf
    rw [process_node]
    simp only [TRY, abortRead, habort, hsig, Bool.or_false, Bool.false_eq_true,
      if_false, hbody]
    cases sp with
    | none => simp [try_paths, try_path_step, try_finally_step, hf]
    | some p => simp [try_paths, try_path_step, try_finally_step, hf]
  · intro fuel s body f rb rf s1 s2 es1 es2 habort hsig hbody hf
    rw [process_node]
    simp only [TRY, abortRead, habort, hsig, Bool.or_false, Bool.false_eq_true,
      if_false, hbody]
    cases rb <;> simp [try_paths, try_path_step, try_finally_step, hf]

/-- C2 witness: with a remote action as both body and finally-path, an
outcome oracle giving SUCCESS then FAIL makes the TRY report failure although
its body succeeded, and an oracle giving FAIL then SUCCESS makes a TRY with
no error_path report success although its body failed. -/
theorem try_finally_result_authoritative_witness :
    process_node ⟨fun _ => false, fun n => if n = 0 then .SUCCESS else .FAIL,
        fun _ _ _ => false⟩ 2 ⟨"x", false, 0, 0, 0, 0, ⟨[], []⟩⟩
      (TRY (.action ⟨.character .MOVE, [], none⟩) none none
        (some (.action ⟨.character .GATHER, [], none⟩))) =
      .ok false ⟨"x", false, 0, 0, 2, 5, ⟨[], []⟩⟩
        [.remoteCall 0 2 0, .remoteCall 1 4 0] ∧
    process_node ⟨fun _ => false, fun n => if n = 0 then .FAIL else .SUCCESS,
        fun _ _ _ => false⟩ 2 ⟨"x", false, 0, 0, 0, 0, ⟨[], []⟩⟩
      (TRY (.action ⟨.character .MOVE, [], none⟩) none none
        (some (.action ⟨.character .GATHER, [], none⟩))) =
      .ok true ⟨"x", false, 0, 0, 2, 5, ⟨[], []⟩⟩
        [.remoteCall 0 2 0, .remoteCall 1 4 0] :=
  ⟨(try_finally_result_authoritative
      ⟨fun _ => false, fun n => if n = 0 then .SUCCESS else .FAIL,
        fun _ _ _ => false⟩).1 1 _ _ _ none ⟨"x", false, 0, 0, 1, 3, ⟨[], []⟩⟩ _
     [.remoteCall 0 2 0] _ rfl rfl rfl rfl,
   (try_finally_result_authoritative
      ⟨fun _ => false, fun n => if n = 0 then .FAIL else .SUCCESS,
        fun _ _ _ => false⟩).2.1 1 _ _ _ none ⟨"x", false, 0, 0, 1, 3, ⟨[], []⟩⟩ _
     [.remoteCall 0 2 0] _ rfl rfl rfl rfl⟩

/-! ### Claim C3 -/

/-- The state reached by one non-aborted iteration of the character-action
loop: the clock has advanced to the cooldown expiry (if it was in the
future), one abort read and one remote call have happened. -/
def after_attempt (s : EngineState) : EngineState :=
  { s with abort_actions := false, now := max s.now s.cooldown_expires_at,
           callCount := s.callCount + 1, checkIdx := s.checkIdx + 1 }

/-- The events of one non-aborted iteration: the cooldown wait (when the
cooldown is in the future), then the remote call, issued at the cooldown
expiry (or immediately) and guarded by this iteration's abort read. -/
def attempt_events (s : EngineState) : List Event :=
  (if s.now < s.cooldown_expires_at then
      [Event.sleep (s.cooldown_expires_at - s.now) s.now] else []) ++
  [Event.remoteCall s.callCount s.checkIdx (max s.now s.cooldown_expires_at)]

/-- One loop iteration, evaluated under a clear abort flag: the remote call
happens and the iteration's fate is decided by the outcome oracle alone. -/
theorem attempt_once_spec (env : Collaborators) (s : EngineState)
    (habort : s.abort_actions = false) (hsig : env.sig s.checkIdx = false) :
    attempt_once env s =
      match env.outcomes s.callCount with
      | .SUCCESS => .done true (after_attempt s) (attempt_events s)
      | .FAIL => .done false (after_attempt s) (attempt_events s)
      | .FAIL_RETRY => .wantRetry (after_attempt s) (attempt_events s)
      | .FAIL_CONTINUE => .done true (after_attempt s) (attempt_events s)
      | .CANCEL => .done true (after_attempt s) (attempt_events s) := by
  rcases lt_or_le s.now s.cooldown_expires_at with h | h
  · have h1 : max (0 : Int) (s.cooldown_expires_at - s.now) =
        s.cooldown_expires_at - s.now := max_eq_right (by omega)
    have h2 : (0 : Int) < max 0 (s.cooldown_expires_at - s.now) := by
      rw [h1]; omega
    have h3 : max s.now s.cooldown_expires_at = s.cooldown_expires_at :=
      max_eq_right h.le
    have h4 : s.now + max (0 : Int) (s.cooldown_expires_at - s.now) =
        s.cooldown_expires_at := by rw [h1]; omega
    cases hc : env.outcomes s.callCount <;>
      simp [attempt_once, abortRead, after_attempt, attempt_events, habort, hsig,
        hc, h, h1, h2, h3, h4]
  · have h1 : max (0 : Int) (s.cooldown_expires_at - s.now) = 0 :=
      max_eq_left (by omega)
    have h2 : ¬ ((0 : Int) < max 0 (s.cooldown_expires_at - s.now)) := by
      rw [h1]; omega
    have h3 : max s.now s.cooldown_expires_at = s.now := max_eq_left h
    cases hc : env.outcomes s.callCount <;>
      simp [attempt_once, abortRead, after_attempt, attempt_events, habort, hsig,
        hc, h1, h2, h3, not_lt.mpr h]
/-- The retrying step of the character-action loop: with attempts remaining,
a `FAIL_RETRY` iteration appends its events and a 1-time-unit backoff sleep,
then loops at the advanced clock. -/
theorem character_action_attempts_retry_step (env : Collaborators) (al : Nat)
    (s st : EngineState) (ev : List Event)
    (h : attempt_once env s = .wantRetry st ev) :
    character_action_attempts env (al + 2) s =
      ((character_action_attempts env (al + 1) { st with now := st.now + 1 }).1,
       (character_action_attempts env (al + 1) { st with now := st.now + 1 }).2.1,
       ev ++ [Event.sleep 1 st.now] ++
         (character_action_attempts env (al + 1) { st with now := st.now + 1 }).2.2) := by
  rw [character_action_attempts, h]

/-- The final step of the character-action loop: with the retry budget
exhausted, a `FAIL_RETRY` iteration hardens to failure. -/
theorem character_action_attempts_exhausted_step (env : Collaborators)
    (s st : EngineState) (ev : List Event)
    (h : attempt_once env s = .wantRetry st ev) :
    character_action_attempts env 1 s = (false, st, ev) := by
  rw [character_action_attempts, attempt_exhausted, h]

/-- C3: if the remote call is classified FAIL_RETRY on every attempt, the
executor invokes the remote collaborator exactly 3 times — never more — with
a 1-time-unit sleep between consecutive attempts, and then returns failure.
The trace is exactly: the initial cooldown wait (if any), then call, sleep 1,
call, sleep 1, call; the final state shows exactly 3 remote calls issued. -/
theorem fail_retry_bounded_three_attempts (env : Collaborators) (s : EngineState)
    (habort : s.abort_actions = false)
    (hsig : ∀ n, env.sig n = false)
    (hout : ∀ n, env.outcomes n = .FAIL_RETRY) :
    character_action_attempts env retry_max s =
      (false,
       { s with abort_actions := false,
                now := max s.now s.cooldown_expires_at + 2,
                callCount := s.callCount + 3, checkIdx := s.checkIdx + 3 },
       attempt_events s ++
       ([Event.sleep 1 (max s.now s.cooldown_expires_at)] ++
        ([Event.remoteCall (s.callCount + 1) (s.checkIdx + 1)
            (max s.now s.cooldown_expires_at + 1)] ++
         ([Event.sleep 1 (max s.now s.cooldown_expires_at + 1)] ++
          [Event.remoteCall (s.callCount + 2) (s.checkIdx + 2)
             (max s.now s.cooldown_expires_at + 2)])))) := by
  have hcle : s.cooldown_expires_at ≤ max s.now s.cooldown_expires_at :=
    le_max_right _ _
  have h1 := attempt_once_spec env s habort (hsig s.checkIdx)
  rw [hout s.callCount] at h1
  show character_action_attempts env (1 + 2) s = _
  rw [character_action_attempts_retry_step env 1 s _ _ h1]
  set s1 : EngineState := { after_attempt s with now := (after_attempt s).now + 1 }
    with hs1
  have h2 := attempt_once_spec env s1 rfl (hsig s1.checkIdx)
  rw [hout s1.callCount] at h2
  rw [show (1 : Nat) + 1 = 0 + 2 from rfl,
    character_action_attempts_retry_step env 0 s1 _ _ h2]
  set s2 : EngineState := { after_attempt s1 with now := (after_attempt s1).now + 1 }
    with hs2
  have h3 := attempt_once_spec env s2 rfl (hsig s2.checkIdx)
  rw [hout s2.callCount] at h3
  rw [show (0 : Nat) + 1 = 1 from rfl,
    character_action_attempts_exhausted_step env s2 _ _ h3]
  have hm1 : max s1.now s1.cooldown_expires_at = max s.now s.cooldown_expires_at + 1 := by
    simp only [hs1, after_attempt]
    omega
  have hm2 : max s2.now s2.cooldown_expires_at = max s.now s.cooldown_expires_at + 2 := by
    simp only [hs2, hs1, after_attempt]
    omega
  have hif1 : ¬ (s1.now < s1.cooldown_expires_at) := by
    simp only [hs1, after_attempt]
    omega
  have hif2 : ¬ (s2.now < s2.cooldown_expires_at) := by
    simp only [hs2, hs1, after_attempt]
    omega
  simp only [attempt_events, if_neg hif1, if_neg hif2, hm1, hm2]
  simp only [hs2, hs1, after_attempt]
  simp [hm1]
  omega

/-- C3 witness: the bounded-retry theorem applied at a concrete state with
the cooldown already expired and an always-FAIL_RETRY oracle; the resulting
trace evaluates to exactly three remote calls separated by 1-time-unit
sleeps, followed by failure. -/
theorem fail_retry_bounded_three_attempts_witness :
    character_action_attempts
        ⟨fun _ => false, fun _ => .FAIL_RETRY, fun _ _ _ => false⟩ retry_max
        ⟨"x", false, 0, 0, 0, 0, ⟨[], []⟩⟩ =
      (false,
       { name := "x", abort_actions := false, cooldown_expires_at := 0,
         now := max 0 0 + 2, callCount := 0 + 3, checkIdx := 0 + 3,
         world := ⟨[], []⟩ },
       attempt_events ⟨"x", false, 0, 0, 0, 0, ⟨[], []⟩⟩ ++
       ([Event.sleep 1 (max 0 0)] ++
        ([Event.remoteCall (0 + 1) (0 + 1) (max 0 0 + 1)] ++
         ([Event.sleep 1 (max 0 0 + 1)] ++
          [Event.remoteCall (0 + 2) (0 + 2) (max 0 0 + 2)])))) ∧
    attempt_events ⟨"x", false, 0, 0, 0, 0, ⟨[], []⟩⟩ = [Event.remoteCall 0 0 0] :=
  ⟨fail_retry_bounded_three_attempts
     ⟨fun _ => false, fun _ => .FAIL_RETRY, fun _ _ _ => false⟩
     ⟨"x", false, 0, 0, 0, 0, ⟨[], []⟩⟩ rfl (fun _ => rfl) (fun _ => rfl),
   by simp [attempt_events]⟩

/-! ### Claim C6 -/

/-- The state carried by an `AttemptResult`. -/
def AttemptResult.state : AttemptResult → EngineState
  | .aborted s _ => s
  | .done _ s _ => s
  | .wantRetry s _ => s

/-- The events carried by an `AttemptResult`. -/
def AttemptResult.events : AttemptResult → List Event
  | .aborted _ es => es
  | .done _ _ es => es
  | .wantRetry _ es => es

/-- No remote call in the trace was issued before time `t`. -/
def remote_calls_not_before (t : Int) (es : List Event) : Bool :=
  es.all fun e =>
    match e with
    | .remoteCall _ _ time => decide (t ≤ time)
    | _ => true

/-- Every remote call of one loop iteration is issued at or after the
iteration's cooldown expiry, and the iteration never changes the expiry. -/
theorem attempt_once_calls_after_cooldown (env : Collaborators) (s : EngineState) :
    remote_calls_not_before s.cooldown_expires_at (attempt_once env s).events = true ∧
    (attempt_once env s).state.cooldown_expires_at = s.cooldown_expires_at := by
  have hle : s.cooldown_expires_at ≤ max s.now s.cooldown_expires_at :=
    le_max_right _ _
  by_cases hab : (s.abort_actions || env.sig s.checkIdx) = true
  · rcases lt_or_le s.now s.cooldown_expires_at with h | h
    · have h2 : (0 : Int) < max 0 (s.cooldown_expires_at - s.now) := by
        have : max (0 : Int) (s.cooldown_expires_at - s.now) =
            s.cooldown_expires_at - s.now := max_eq_right (by omega)
        omega
      simp [attempt_once, abortRead, hab, h2, remote_calls_not_before,
        AttemptResult.events, AttemptResult.state]
    · have h2 : ¬ ((0 : Int) < max 0 (s.cooldown_expires_at - s.now)) := by
        have : max (0 : Int) (s.cooldown_expires_at - s.now) = 0 :=
          max_eq_left (by omega)
        omega
      simp [attempt_once, abortRead, hab, h2, remote_calls_not_before,
        AttemptResult.events, AttemptResult.state]
  · have habf : (s.abort_actions || env.sig s.checkIdx) = false := by
      simpa using hab
    rcases lt_or_le s.now s.cooldown_expires_at with h | h
    · have h1 : max (0 : Int) (s.cooldown_expires_at - s.now) =
          s.cooldown_expires_at - s.now := max_eq_right (by omega)
      have h2 : (0 : Int) < max 0 (s.cooldown_expires_at - s.now) := by omega
      have h4 : s.now + max (0 : Int) (s.cooldown_expires_at - s.now) =
          s.cooldown_expires_at := by omega
      cases hc : env.outcomes s.callCount <;>
        simp [attempt_once, abortRead, habf, hc, h2, h4, remote_calls_not_before,
          AttemptResult.events, AttemptResult.state]
    · have h2 : ¬ ((0 : Int) < max 0 (s.cooldown_expires_at - s.now)) := by
        have : max (0 : Int) (s.cooldown_expires_at - s.now) = 0 :=
          max_eq_left (by omega)
        omega
      cases hc : env.outcomes s.callCount <;>
        simp [attempt_once, abortRead, habf, hc, h2, h, remote_calls_not_before,
          AttemptResult.events, AttemptResult.state]

/-- The whole retry loop never issues a remote call before the cooldown
expiry of the state it starts from. -/
theorem character_action_attempts_calls_after_cooldown (env : Collaborators) :
    ∀ (al : Nat) (s : EngineState),
      remote_calls_not_before s.cooldown_expires_at
        (character_action_attempts env al s).2.2 = true := by
  intro al
  induction al using Nat.strong_induction_on with
  | _ al ih =>
      intro s
      have hao := attempt_once_calls_after_cooldown env s
      match al with
      | 0 =>
          rw [character_action_attempts, attempt_exhausted]
          rcases hres : attempt_once env s with ⟨s2, es⟩ | ⟨r, s3, es⟩ | ⟨s3, es⟩ <;>
            (rw [hres] at hao; simpa [AttemptResult.events] using hao.1)
      | 1 =>
          rw [character_action_attempts, attempt_exhausted]
          rcases hres : attempt_once env s with ⟨s2, es⟩ | ⟨r, s3, es⟩ | ⟨s3, es⟩ <;>
            (rw [hres] at hao; simpa [AttemptResult.events] using hao.1)
      | al2 + 2 =>
          rw [character_action_attempts]
          rcases hres : attempt_once env s with ⟨s2, es⟩ | ⟨r, s3, es⟩ | ⟨s3, es⟩ <;>
            rw [hres] at hao
          · simpa [AttemptResult.events] using hao.1
          · simpa [AttemptResult.events] using hao.1
          · have hcool : s3.cooldown_expires_at = s.cooldown_expires_at := by
              simpa [AttemptResult.state] using hao.2
            have hes : remote_calls_not_before s.cooldown_expires_at es = true := by
              simpa [AttemptResult.events] using hao.1
            have hrec := ih (al2 + 1) (by omega) { s3 with now := s3.now + 1 }
            simp only [remote_calls_not_before, List.all_append, List.all_cons,
              List.all_nil, Bool.and_eq_true] at hes hrec ⊢
            refine ⟨⟨hes, by simp⟩, ?_⟩
            simpa [hcool] using hrec

/-- When the cooldown is in the future, the very first event of one loop
iteration is the suspension for `max(0, cooldown_expires_at − now)`. -/
theorem attempt_once_first_suspends (env : Collaborators) (s : EngineState)
    (h : s.now < s.cooldown_expires_at) :
    (attempt_once env s).events.head? =
      some (Event.sleep (max 0 (s.cooldown_expires_at - s.now)) s.now) := by
  have h2 : (0 : Int) < max 0 (s.cooldown_expires_at - s.now) := by
    have : max (0 : Int) (s.cooldown_expires_at - s.now) =
        s.cooldown_expires_at - s.now := max_eq_right (by omega)
    omega
  by_cases hab : (s.abort_actions || env.sig s.checkIdx) = true
  · simp [attempt_once, abortRead, hab, h2, AttemptResult.events]
  · have habf : (s.abort_actions || env.sig s.checkIdx) = false := by simpa using hab
    cases hc : env.outcomes s.callCount <;>
      simp [attempt_once, abortRead, habf, hc, h2, AttemptResult.events]

/-- C6: a remote character action reached while `cooldown_expires_at` is in
the future does not call the remote collaborator until that time has
elapsed: the worker's first event is the suspension for
`max(0, cooldown_expires_at − now)` entered at `now`, and every remote call
in the executor's trace — across all retries — is issued at a time at or
after `cooldown_expires_at`. -/
theorem cooldown_gates_remote_calls (env : Collaborators) :
    (∀ (s : EngineState), s.now < s.cooldown_expires_at →
        (character_action_attempts env retry_max s).2.2.head? =
          some (Event.sleep (max 0 (s.cooldown_expires_at - s.now)) s.now)) ∧
    (∀ (al : Nat) (s : EngineState),
        remote_calls_not_before s.cooldown_expires_at
          (character_action_attempts env al s).2.2 = true) := by
  refine ⟨?_, character_action_attempts_calls_after_cooldown env⟩
  intro s h
  have hhead := attempt_once_first_suspends env s h
  show (character_action_attempts env (1 + 2) s).2.2.head? = _
  rw [character_action_attempts]
  rcases hres : attempt_once env s with ⟨s2, es⟩ | ⟨r, s3, es⟩ | ⟨s3, es⟩ <;>
    rw [hres] at hhead <;>
    simp only [AttemptResult.events] at hhead
  · simpa using hhead
  · simpa using hhead
  · simp only []
    rw [List.append_assoc, List.head?_append, hhead]
    rfl

/-- C6 witness: at a concrete state whose cooldown expires at time 5 with the
clock at 0, the executor's first event is the 5-unit suspension entered at
time 0, no remote call in the trace is issued before time 5, and the full
trace evaluates to exactly that suspension followed by one remote call at
time 5. -/
theorem cooldown_gates_remote_calls_witness :
    (character_action_attempts ⟨fun _ => false, fun _ => .SUCCESS, fun _ _ _ => false⟩
        retry_max ⟨"x", false, 5, 0, 0, 0, ⟨[], []⟩⟩).2.2.head? =
      some (Event.sleep (max 0 (5 - 0)) 0) ∧
    remote_calls_not_before 5
      (character_action_attempts ⟨fun _ => false, fun _ => .SUCCESS, fun _ _ _ => false⟩
        retry_max ⟨"x", false, 5, 0, 0, 0, ⟨[], []⟩⟩).2.2 = true ∧
    character_action_attempts ⟨fun _ => false, fun _ => .SUCCESS, fun _ _ _ => false⟩
        retry_max ⟨"x", false, 5, 0, 0, 0, ⟨[], []⟩⟩ =
      (true, ⟨"x", false, 5, 5, 1, 1, ⟨[], []⟩⟩,
       [Event.sleep 5 0, Event.remoteCall 0 0 5]) :=
  ⟨(cooldown_gates_remote_calls
      ⟨fun _ => false, fun _ => .SUCCESS, fun _ _ _ => false⟩).1
     ⟨"x", false, 5, 0, 0, 0, ⟨[], []⟩⟩ (by decide),
   (cooldown_gates_remote_calls
      ⟨fun _ => false, fun _ => .SUCCESS, fun _ _ _ => false⟩).2 retry_max
     ⟨"x", false, 5, 0, 0, 0, ⟨[], []⟩⟩,
   rfl⟩

/-! ### Claim C4 -/

/-- A FOREVER condition leaf always evaluates true: it is the constant
loop-continuation condition. -/
theorem evaluate_condition_forever (env : Collaborators) (s : EngineState)
    (params : List (String × ParamValue)) :
    evaluate_condition env s (some (.mk none (some .FOREVER) params [])) = true := by
  simp [evaluate_condition, ActionConditionExpression.is_leaf,
    ActionConditionExpression.condition, ActionConditionExpression.parameters,
    evaluate_leaf_condition]

/-- A remote action whose calls always classify SUCCESS processes to success,
and the resulting state still has a clear abort flag. -/
theorem process_char_action_success (env : Collaborators)
    (hsig : ∀ n, env.sig n = false) (hout : ∀ n, env.outcomes n = .SUCCESS)
    (fuel : Nat) (s : EngineState) (habort : s.abort_actions = false)
    (a : CharacterAction) (params : List (String × ParamValue))
    (uc : Option ActionConditionExpression) :
    process_node env (fuel + 1) s (.action ⟨.character a, params, uc⟩) =
      .ok true
        (after_attempt { s with abort_actions := false, checkIdx := s.checkIdx + 1 })
        (attempt_events { s with abort_actions := false, checkIdx := s.checkIdx + 1 }) := by
  have hstep : ∀ (al : Nat) (s2 : EngineState), s2.abort_actions = false →
      character_action_attempts env al s2 =
        (true, after_attempt s2, attempt_events s2) := by
    intro al s2 h2
    have h1 := attempt_once_spec env s2 h2 (hsig s2.checkIdx)
    rw [hout s2.callCount] at h1
    match al with
    | 0 => rw [character_action_attempts, attempt_exhausted, h1]
    | 1 => rw [character_action_attempts, attempt_exhausted, h1]
    | al2 + 2 => rw [character_action_attempts, h1]
  rw [process_node]
  simp only [abortRead, habort, hsig, Bool.or_false]
  rw [hstep retry_max { s with abort_actions := false, checkIdx := s.checkIdx + 1 } rfl]
  simp

/-- A WHILE loop over a FOREVER condition with an always-succeeding remote
body re-enters its body at every unfolding: no amount of fuel makes it
return (the source loops forever). -/
theorem run_while_forever (env : Collaborators)
    (hsig : ∀ n, env.sig n = false) (hout : ∀ n, env.outcomes n = .SUCCESS)
    (f : Nat) (a : CharacterAction) (params fparams : List (String × ParamValue))
    (uc : Option ActionConditionExpression) :
    ∀ (wfuel : Nat) (s : EngineState), s.abort_actions = false →
      run_while env (process_node env (f + 1)) wfuel s
        (some (.action ⟨.character a, params, uc⟩))
        (some (.mk none (some .FOREVER) fparams [])) = .fuelOut := by
  intro wfuel
  induction wfuel with
  | zero => intro s _; rw [run_while]
  | succ w ih =>
      intro s habort
      rw [run_while]
      rw [evaluate_condition_forever env s fparams]
      rw [process_char_action_success env hsig hout f s habort a params uc]
      simp only [if_true]
      rw [ih _ rfl]

/-- A DO_WHILE loop over a FOREVER condition with an always-succeeding remote
body likewise never stops: after each body run the exit check
`not evaluate_condition(...)` is false, so it loops for any fuel. -/
theorem run_do_while_forever (env : Collaborators)
    (hsig : ∀ n, env.sig n = false) (hout : ∀ n, env.outcomes n = .SUCCESS)
    (f : Nat) (a : CharacterAction) (params fparams : List (String × ParamValue))
    (uc : Option ActionConditionExpression) :
    ∀ (wfuel : Nat) (s : EngineState), s.abort_actions = false →
      run_do_while env (process_node env (f + 1)) wfuel s
        (some (.action ⟨.character a, params, uc⟩))
        (some (.mk none (some .FOREVER) fparams [])) = .fuelOut := by
  intro wfuel
  induction wfuel with
  | zero => intro s _; rw [run_do_while]
  | succ w ih =>
      intro s habort
      rw [run_do_while]
      simp only [process_char_action_success env hsig hout f s habort a params uc,
        evaluate_condition_forever, Bool.not_true, Bool.false_eq_true, if_false]
      rw [ih _ rfl]

/-- C4: the FOREVER condition tag is a constant: as a loop-continuation test
it always holds (`_evaluate_condition` returns true for a FOREVER leaf), so
as the loop-exit ("until") test — which the engine computes as the negation
`not evaluate_condition(...)` in DO_WHILE — it never holds; consequently a
WHILE or DO_WHILE conditioned on FOREVER (with an always-succeeding remote
body) keeps continuing: the interpreter returns fuel-exhaustion for every
fuel, the image of the source looping forever. -/
theorem forever_condition_constant_loops (env : Collaborators) :
    (∀ (s : EngineState) (params : List (String × ParamValue)),
        evaluate_condition env s (some (.mk none (some .FOREVER) params [])) = true) ∧
    (∀ (s : EngineState) (params : List (String × ParamValue)),
        (!evaluate_condition env s (some (.mk none (some .FOREVER) params []))) =
          false) ∧
    (∀ (a : CharacterAction) (params fparams : List (String × ParamValue))
        (uc : Option ActionConditionExpression) (fuel : Nat) (s : EngineState),
        (∀ n, env.sig n = false) → (∀ n, env.outcomes n = .SUCCESS) →
        s.abort_actions = false →
        process_node env fuel s
          (WHILE (.action ⟨.character a, params, uc⟩)
            (.mk none (some .FOREVER) fparams [])) = .fuelOut) ∧
    (∀ (a : CharacterAction) (params fparams : List (String × ParamValue))
        (uc : Option ActionConditionExpression) (fuel : Nat) (s : EngineState),
        (∀ n, env.sig n = false) → (∀ n, env.outcomes n = .SUCCESS) →
        s.abort_actions = false →
        process_node env fuel s
          (DO_WHILE (.action ⟨.character a, params, uc⟩)
            (.mk none (some .FOREVER) fparams [])) = .fuelOut) := by
  refine ⟨fun s params => evaluate_condition_forever env s params,
    fun s params => by rw [evaluate_condition_forever env s params]; rfl, ?_, ?_⟩
  · intro a params fparams uc fuel s hsig hout habort
    match fuel with
    | 0 => rw [process_node]
    | 1 =>
        rw [process_node]
        simp only [abortRead, habort, hsig, Bool.or_false, Bool.false_eq_true,
          if_false, WHILE]
        rw [run_while]
    | f + 2 =>
        rw [process_node]
        simp only [abortRead, habort, hsig, Bool.or_false, Bool.false_eq_true,
          if_false, WHILE]
        rw [run_while_forever env hsig hout f a params fparams uc (f + 1) _ rfl]
  · intro a params fparams uc fuel s hsig hout habort
    match fuel with
    | 0 => rw [process_node]
    | 1 =>
        rw [process_node]
        simp only [abortRead, habort, hsig, Bool.or_false, Bool.false_eq_true,
          if_false, DO_WHILE]
        rw [run_do_while]
    | f + 2 =>
        rw [process_node]
        simp only [abortRead, habort, hsig, Bool.or_false, Bool.false_eq_true,
          if_false, DO_WHILE]
        rw [run_do_while_forever env hsig hout f a params fparams uc (f + 1) _ rfl]

/-- C4 witness: the FOREVER constant at a concrete state — the continuation
test holds, the exit test does not, and WHILE/DO_WHILE nodes conditioned on
FOREVER exhaust a concrete fuel of 4 instead of returning. -/
theorem forever_condition_constant_loops_witness :
    evaluate_condition ⟨fun _ => false, fun _ => .SUCCESS, fun _ _ _ => false⟩
        ⟨"x", false, 0, 0, 0, 0, ⟨[], []⟩⟩
        (some (.mk none (some .FOREVER) [] [])) = true ∧
    (!evaluate_condition ⟨fun _ => false, fun _ => .SUCCESS, fun _ _ _ => false⟩
        ⟨"x", false, 0, 0, 0, 0, ⟨[], []⟩⟩
        (some (.mk none (some .FOREVER) [] []))) = false ∧
    process_node ⟨fun _ => false, fun _ => .SUCCESS, fun _ _ _ => false⟩ 4
        ⟨"x", false, 0, 0, 0, 0, ⟨[], []⟩⟩
        (WHILE (.action ⟨.character .GATHER, [], none⟩)
          (.mk none (some .FOREVER) [] [])) = .fuelOut ∧
    process_node ⟨fun _ => false, fun _ => .SUCCESS, fun _ _ _ => false⟩ 4
        ⟨"x", false, 0, 0, 0, 0, ⟨[], []⟩⟩
        (DO_WHILE (.action ⟨.character .GATHER, [], none⟩)
          (.mk none (some .FOREVER) [] [])) = .fuelOut :=
  ⟨(forever_condition_constant_loops
      ⟨fun _ => false, fun _ => .SUCCESS, fun _ _ _ => false⟩).1 _ _,
   (forever_condition_constant_loops
      ⟨fun _ => false, fun _ => .SUCCESS, fun _ _ _ => false⟩).2.1 _ _,
   (forever_condition_constant_loops
      ⟨fun _ => false, fun _ => .SUCCESS, fun _ _ _ => false⟩).2.2.1 .GATHER [] [] none
     4 ⟨"x", false, 0, 0, 0, 0, ⟨[], []⟩⟩ (fun _ => rfl) (fun _ => rfl) rfl,
   (forever_condition_constant_loops
      ⟨fun _ => false, fun _ => .SUCCESS, fun _ _ _ => false⟩).2.2.2 .GATHER [] [] none
     4 ⟨"x", false, 0, 0, 0, 0, ⟨[], []⟩⟩ (fun _ => rfl) (fun _ => rfl) rfl⟩

/-! ### Claim C7 -/

/-- The trace of a completed run; crashes and fuel exhaustion carry none. -/
def RunResult.traceOf : RunResult → List Event
  | .ok _ _ es => es
  | _ => []

/-- Did the run complete (rather than crash or run out of fuel)? -/
def RunResult.isOkResult : RunResult → Bool
  | .ok _ _ _ => true
  | _ => false

/-- Every remote call in the trace was guarded by an abort-flag read of
index below `k` — i.e. no remote call was issued at or after the `k`-th
read. -/
def calls_guarded_before (k : Nat) (es : List Event) : Bool :=
  es.all fun e =>
    match e with
    | .remoteCall _ g _ => decide (g < k)
    | _ => true

theorem calls_guarded_before_append (k : Nat) (a b : List Event) :
    calls_guarded_before k (a ++ b) =
      (calls_guarded_before k a && calls_guarded_before k b) := by
  simp [calls_guarded_before]

/-- Once external abort requests are permanently raised from read `k`
onward, a loop iteration issues its remote call only under an abort read
below `k` (a read at or beyond `k` observes the request and aborts). -/
theorem attempt_once_calls_guarded (env : Collaborators) (k : Nat)
    (hk : ∀ i, k ≤ i → env.sig i = true) (s : EngineState) :
    calls_guarded_before k (attempt_once env s).events = true := by
  by_cases hab : (s.abort_actions || env.sig s.checkIdx) = true
  · by_cases hcd : (0 : Int) < max 0 (s.cooldown_expires_at - s.now) <;>
      simp [attempt_once, abortRead, hab, hcd, AttemptResult.events,
        calls_guarded_before]
  · have habf : (s.abort_actions || env.sig s.checkIdx) = false := by simpa using hab
    have hsigf : env.sig s.checkIdx = false := by
      rcases Bool.or_eq_false_iff.mp habf with ⟨_, h⟩
      exact h
    have hlt : s.checkIdx < k := by
      by_contra hge
      have := hk s.checkIdx (by omega)
      rw [this] at hsigf
      exact Bool.noConfusion hsigf
    by_cases hcd : (0 : Int) < max 0 (s.cooldown_expires_at - s.now) <;>
      cases hc : env.outcomes s.callCount <;>
        simp [attempt_once, abortRead, habf, hc, hcd, AttemptResult.events,
          calls_guarded_before, hlt]

/-- The guard bound extends through the whole retry loop. -/
theorem character_action_attempts_calls_guarded (env : Collaborators) (k : Nat)
    (hk : ∀ i, k ≤ i → env.sig i = true) :
    ∀ (al : Nat) (s : EngineState),
      calls_guarded_before k (character_action_attempts env al s).2.2 = true := by
  intro al
  induction al using Nat.strong_induction_on with
  | _ al ih =>
      intro s
      have hao := attempt_once_calls_guarded env k hk s
      match al with
      | 0 =>
          rw [character_action_attempts, attempt_exhausted]
          rcases hres : attempt_once env s with ⟨s2, es⟩ | ⟨r, s3, es⟩ | ⟨s3, es⟩ <;>
            (rw [hres] at hao; simpa [AttemptResult.events] using hao)
      | 1 =>
          rw [character_action_attempts, attempt_exhausted]
          rcases hres : attempt_once env s with ⟨s2, es⟩ | ⟨r, s3, es⟩ | ⟨s3, es⟩ <;>
            (rw [hres] at hao; simpa [AttemptResult.events] using hao)
      | al2 + 2 =>
          rw [character_action_attempts]
          rcases hres : attempt_once env s with ⟨s2, es⟩ | ⟨r, s3, es⟩ | ⟨s3, es⟩ <;>
            rw [hres] at hao
          · simpa [AttemptResult.events] using hao
          · simpa [AttemptResult.events] using hao
          · have hes : calls_guarded_before k es = true := by
              simpa [AttemptResult.events] using hao
            have hrec := ih (al2 + 1) (by omega) { s3 with now := s3.now + 1 }
            simp only [calls_guarded_before, List.all_append, List.all_cons,
              List.all_nil, Bool.and_eq_true] at hes hrec ⊢
            exact ⟨⟨hes, by simp⟩, hrec⟩

/-- Meta actions never issue remote calls, so their traces are trivially
guarded. -/
theorem process_single_meta_action_calls_guarded (env : Collaborators) (k : Nat)
    (s : EngineState) (m : MetaAction) (params : List (String × ParamValue)) :
    calls_guarded_before k (process_single_meta_action env s m params).traceOf =
      true := by
  unfold process_single_meta_action
  by_cases hab : (s.abort_actions || env.sig s.checkIdx) = true
  · simp [abortRead, hab, RunResult.traceOf, calls_guarded_before]
  · have habf : (s.abort_actions || env.sig s.checkIdx) = false := by simpa using hab
    rcases hmp : meta_perform s.world s.name m params with e | ⟨w2, oc⟩
    · simp [abortRead, habf, hmp, RunResult.traceOf, calls_guarded_before]
    · cases oc <;>
        simp [abortRead, habf, hmp, RunResult.traceOf, calls_guarded_before]

/-- Sequencing a guarded continuation after a guarded prefix stays guarded. -/
theorem guard_bind (k : Nat) (proc : EngineState → PlanNode → RunResult)
    (hproc : ∀ s n, calls_guarded_before k (proc s n).traceOf = true)
    (s : EngineState) (p : PlanNode) (es : List Event)
    (hes : calls_guarded_before k es = true) :
    calls_guarded_before k
      (match proc s p with
       | .ok r2 s2 es2 => RunResult.ok r2 s2 (es ++ es2)
       | o => o).traceOf = true := by
  have h := hproc s p
  rcases hp : proc s p with ⟨r2, s2, es2⟩ | m | _ <;> rw [hp] at h <;>
    simp only [RunResult.traceOf] at h ⊢
  · rw [calls_guarded_before_append, h, hes]
    rfl
  · simp [calls_guarded_before]
  · simp [calls_guarded_before]

theorem run_group_actions_calls_guarded (k : Nat)
    (proc : EngineState → PlanNode → RunResult)
    (hproc : ∀ s n, calls_guarded_before k (proc s n).traceOf = true) :
    ∀ (l : List PlanNode) (s : EngineState),
      calls_guarded_before k (run_group_actions proc s l).traceOf = true := by
  intro l
  induction l with
  | nil => intro s; simp [run_group_actions, RunResult.traceOf, calls_guarded_before]
  | cons a rest ih =>
      intro s
      rw [run_group_actions]
      have h := hproc s a
      rcases hp : proc s a with ⟨r1, s1, es1⟩ | m | _ <;> rw [hp] at h <;>
        simp only [hp, RunResult.traceOf] at h ⊢
      · cases r1
        · simpa [RunResult.traceOf] using h
        · have h2 := ih s1
          rcases hg : run_group_actions proc s1 rest with ⟨r2, s2, es2⟩ | m | _ <;>
            rw [hg] at h2 <;> simp only [hg, RunResult.traceOf] at h2 ⊢
          · rw [calls_guarded_before_append, h, h2]
            rfl
          · simp [calls_guarded_before]
          · simp [calls_guarded_before]
      · simp [calls_guarded_before]
      · simp [calls_guarded_before]

theorem run_while_calls_guarded (env : Collaborators) (k : Nat)
    (proc : EngineState → PlanNode → RunResult)
    (hproc : ∀ s n, calls_guarded_before k (proc s n).traceOf = true) :
    ∀ (wfuel : Nat) (s : EngineState) (body : Option PlanNode)
      (cond : Option ActionConditionExpression),
      calls_guarded_before k (run_while env proc wfuel s body cond).traceOf = true := by
  intro wfuel
  induction wfuel with
  | zero =>
      intro s body cond
      simp [run_while, RunResult.traceOf, calls_guarded_before]
  | succ w ih =>
      intro s body cond
      rcases body with _ | b
      · rw [run_while]
        by_cases hcond : evaluate_condition env s cond = true <;>
          simp [hcond, RunResult.traceOf, calls_guarded_before]
      · rw [run_while]
        by_cases hcond : evaluate_condition env s cond = true
        · simp only [hcond, if_true]
          have h := hproc s b
          rcases hp : proc s b with ⟨r1, s1, es1⟩ | m | _ <;> rw [hp] at h <;>
            simp only [hp, RunResult.traceOf] at h ⊢
          · cases r1
            · simpa [RunResult.traceOf] using h
            · have h2 := ih s1 (some b) cond
              rcases hg : run_while env proc w s1 (some b) cond with
                ⟨r2, s2, es2⟩ | m | _ <;> rw [hg] at h2 <;>
                simp only [hg, RunResult.traceOf] at h2 ⊢
              · rw [calls_guarded_before_append, h, h2]
                rfl
              · simp [calls_guarded_before]
              · simp [calls_guarded_before]
          · simp [calls_guarded_before]
          · simp [calls_guarded_before]
        · simp [hcond, RunResult.traceOf, calls_guarded_before]

theorem run_do_while_calls_guarded (env : Collaborators) (k : Nat)
    (proc : EngineState → PlanNode → RunResult)
    (hproc : ∀ s n, calls_guarded_before k (proc s n).traceOf = true) :
    ∀ (wfuel : Nat) (s : EngineState) (body : Option PlanNode)
      (cond : Option ActionConditionExpression),
      calls_guarded_before k (run_do_while env proc wfuel s body cond).traceOf =
        true := by
  intro wfuel
  induction wfuel with
  | zero =>
      intro s body cond
      simp [run_do_while, RunResult.traceOf, calls_guarded_before]
  | succ w ih =>
      intro s body cond
      rcases body with _ | b
      · rw [run_do_while]
        simp [RunResult.traceOf, calls_guarded_before]
      · rw [run_do_while]
        have h := hproc s b
        rcases hp : proc s b with ⟨r1, s1, es1⟩ | m | _ <;> rw [hp] at h <;>
          simp only [hp, RunResult.traceOf] at h ⊢
        · cases r1
          · simpa [RunResult.traceOf] using h
          · by_cases hcond : evaluate_condition env s1 cond = true
            · simp only [hcond, Bool.not_true, Bool.false_eq_true, if_false]
              have h2 := ih s1 (some b) cond
              rcases hg : run_do_while env proc w s1 (some b) cond with
                ⟨r2, s2, es2⟩ | m | _ <;> rw [hg] at h2 <;>
                simp only [hg, RunResult.traceOf] at h2 ⊢
              · rw [calls_guarded_before_append, h, h2]
                rfl
              · simp [calls_guarded_before]
              · simp [calls_guarded_before]
            · rw [Bool.not_eq_true] at hcond
              simpa [hcond, RunResult.traceOf] using h
        · simp [calls_guarded_before]
        · simp [calls_guarded_before]

theorem try_path_step_calls_guarded (k : Nat)
    (proc : EngineState → PlanNode → RunResult)
    (hproc : ∀ s n, calls_guarded_before k (proc s n).traceOf = true)
    (want : Bool) (path : Option PlanNode) (res : RunResult)
    (hres : calls_guarded_before k res.traceOf = true) :
    calls_guarded_before k (try_path_step proc want path res).traceOf = true := by
  rcases res with ⟨r, s, es⟩ | m | _
  · simp only [RunResult.traceOf] at hres
    rcases path with _ | p
    · simpa [try_path_step, RunResult.traceOf] using hres
    · by_cases hw : r = want
      · simp only [try_path_step, hw, if_pos]
        simpa using guard_bind k proc hproc s p es hres
      · simpa [try_path_step, hw, RunResult.traceOf] using hres
  · simp [try_path_step, RunResult.traceOf, calls_guarded_before]
  · simp [try_path_step, RunResult.traceOf, calls_guarded_before]

theorem try_finally_step_calls_guarded (k : Nat)
    (proc : EngineState → PlanNode → RunResult)
    (hproc : ∀ s n, calls_guarded_before k (proc s n).traceOf = true)
    (path : Option PlanNode) (res : RunResult)
    (hres : calls_guarded_before k res.traceOf = true) :
    calls_guarded_before k (try_finally_step proc path res).traceOf = true := by
  rcases res with ⟨r, s, es⟩ | m | _
  · simp only [RunResult.traceOf] at hres
    rcases path with _ | p
    · simpa [try_finally_step, RunResult.traceOf] using hres
    · simpa [try_finally_step] using guard_bind k proc hproc s p es hres
  · simp [try_finally_step, RunResult.traceOf, calls_guarded_before]
  · simp [try_finally_step, RunResult.traceOf, calls_guarded_before]

/-- Once external abort requests are permanently raised from read `k`
onward, no remote call anywhere in a processed plan tree is issued under an
abort read at or beyond `k`: processing reaches its abort checkpoints before
every call. -/
theorem process_node_calls_guarded (env : Collaborators) (k : Nat)
    (hk : ∀ i, k ≤ i → env.sig i = true) :
    ∀ (fuel : Nat) (s : EngineState) (node : PlanNode),
      calls_guarded_before k (process_node env fuel s node).traceOf = true := by
  intro fuel
  induction fuel with
  | zero =>
      intro s node
      simp [process_node, RunResult.traceOf, calls_guarded_before]
  | succ f ih =>
      intro s node
      rw [process_node]
      by_cases hab : (s.abort_actions || env.sig s.checkIdx) = true
      · simp [abortRead, hab, RunResult.traceOf, calls_guarded_before]
      · have habf : (s.abort_actions || env.sig s.checkIdx) = false := by simpa using hab
        simp only [abortRead, habf, Bool.false_eq_true, if_false]
        rcases node with a | ⟨l, uc⟩ |
          ⟨op, branches, fail_path, cnode, cond, sp, ep, fp⟩ | resolver
        · rcases a with ⟨ty, params, uc2⟩
          rcases ty with ca | m
          · have h := character_action_attempts_calls_guarded env k hk retry_max
              { s with abort_actions := false, checkIdx := s.checkIdx + 1 }
            rcases hc : character_action_attempts env retry_max
                { s with abort_actions := false, checkIdx := s.checkIdx + 1 } with
              ⟨r, s2, es⟩
            rw [hc] at h
            simpa [hc, RunResult.traceOf] using h
          · exact process_single_meta_action_calls_guarded env k _ m params
        · exact run_group_actions_calls_guarded k _ (fun s2 n => ih s2 n) l _
        · rcases op with _ | _ | _ | _
          · rcases hbr : evaluate_control_branches env
                { s with abort_actions := false, checkIdx := s.checkIdx + 1 }
                branches fail_path with _ | b
            · simp [hbr, RunResult.traceOf, calls_guarded_before]
            · simpa [hbr] using ih _ b
          · exact run_while_calls_guarded env k _ (fun s2 n => ih s2 n) f _ cnode cond
          · exact run_do_while_calls_guarded env k _ (fun s2 n => ih s2 n) f _ cnode
              cond
          · rcases cnode with _ | body
            · simp [RunResult.traceOf, calls_guarded_before]
            · have h := ih { s with abort_actions := false, checkIdx := s.checkIdx + 1 }
                body
              rcases hb : process_node env f
                  { s with abort_actions := false, checkIdx := s.checkIdx + 1 } body with
                ⟨r1, s1, es1⟩ | m | _ <;> rw [hb] at h <;>
                simp only [hb, RunResult.traceOf] at h ⊢
              · refine try_finally_step_calls_guarded k _ (fun s2 n => ih s2 n) fp _ ?_
                refine try_path_step_calls_guarded k _ (fun s2 n => ih s2 n) false ep _
                  ?_
                exact try_path_step_calls_guarded k _ (fun s2 n => ih s2 n) true sp
                  (.ok r1 s1 es1) (by simpa [RunResult.traceOf] using h)
              · simp [calls_guarded_before]
              · simp [calls_guarded_before]
        · exact ih _ _

theorem dictGet_dictRemove_self {α : Type} (k : String) (l : List (String × α)) :
    dictGet k (dictRemove k l) = none := by
  induction l with
  | nil => simp [dictRemove, dictGet]
  | cons kv rest ih =>
      by_cases h : kv.1 = k
      · simpa [dictRemove, h] using ih
      · simpa [dictRemove, dictGet, h] using ih

/-- `clear_bank_reservation(name)` with no item never raises and leaves the
holder with no reservations (and the raw bank snapshot untouched). -/
theorem clear_bank_reservation_all (w : BankState) (c : String) :
    ∃ w2, clear_bank_reservation w c none = .ok w2 ∧
      (dictGet c w2.bank_reservations).getD [] = [] ∧
      w2.bank_data = w.bank_data := by
  unfold clear_bank_reservation
  by_cases h : (dictGet c w.bank_reservations).getD [] = []
  · exact ⟨w, by simp [h], h, rfl⟩
  · refine ⟨⟨w.bank_data, dictRemove c w.bank_reservations⟩, ?_, ?_, rfl⟩
    · simp [h]
    · simp [dictGet_dictRemove_self]

/-- C7: the abort flag is honored at every checkpoint and cleaned up by the
worker.  (1) Any recursive `_process_node` call that reads a set abort flag
— whether already observed or raised externally by that read — returns
failure immediately, issuing no remote calls and touching nothing else.
(2) If external abort requests are permanently raised from abort-read `k`
onward, then no remote call anywhere in the processed tree is issued under a
read at or beyond `k`: the currently running and all subsequent sibling and
nested actions are skipped from the next checkpoint on.  (3) After the node
completes, if the worker's own read of the flag sees it set, the worker
returns a completed result in which the abort flag has been cleared and the
character holds no bank reservations. -/
theorem abort_skips_actions_and_worker_cleans_up (env : Collaborators) (k : Nat)
    (hk : ∀ i, k ≤ i → env.sig i = true) :
    (∀ (fuel : Nat) (s : EngineState) (node : PlanNode),
        s.abort_actions = true ∨ env.sig s.checkIdx = true →
        process_node env (fuel + 1) s node =
          .ok false { s with abort_actions := true, checkIdx := s.checkIdx + 1 } []) ∧
    (∀ (fuel : Nat) (s : EngineState) (node : PlanNode),
        calls_guarded_before k (process_node env fuel s node).traceOf = true) ∧
    (∀ (fuel : Nat) (s : EngineState) (node : PlanNode) (r : Bool)
        (s1 : EngineState) (es : List Event),
        process_node env fuel s node = .ok r s1 es →
        s1.abort_actions = true ∨ env.sig s1.checkIdx = true →
        (worker_process_popped env fuel s node).isOkResult = true ∧
        (∀ (r2 : Bool) (s2 : EngineState) (es2 : List Event),
            worker_process_popped env fuel s node = .ok r2 s2 es2 →
            r2 = r ∧ es2 = es ∧ s2.abort_actions = false ∧
            (dictGet s1.name s2.world.bank_reservations).getD [] = [])) := by
  refine ⟨?_, process_node_calls_guarded env k hk, ?_⟩
  · intro fuel s node h
    rw [process_node]
    rcases h with h | h <;> simp [abortRead, h]
  · intro fuel s node r s1 es hrun h
    have habt : (s1.abort_actions || env.sig s1.checkIdx) = true := by
      rcases h with h | h <;> simp [h]
    obtain ⟨w2, hw, hempty, _⟩ := clear_bank_reservation_all s1.world s1.name
    unfold worker_process_popped
    rw [hrun]
    simp only [abortRead, habt, if_true]
    rw [hw]
    refine ⟨rfl, ?_⟩
    intro r2 s2 es2 heq
    rw [RunResult.ok.injEq] at heq
    obtain ⟨h1, h2, h3⟩ := heq
    subst h1 h2 h3
    exact ⟨rfl, rfl, rfl, hempty⟩

/-- C7 witness: with abort requested from the very first read (k = 0), a
process call returns failure without any event; a two-action group's trace
contains no remote call at all; and the worker, having processed a node for
a character holding an iron_ore reservation, ends with the abort flag
cleared and the character's reservations released. -/
theorem abort_skips_actions_and_worker_cleans_up_witness :
    process_node ⟨fun _ => true, fun _ => .SUCCESS, fun _ _ _ => false⟩ 1
        ⟨"x", false, 0, 0, 0, 0, ⟨[], []⟩⟩ (.action ⟨.character .MOVE, [], none⟩) =
      .ok false ⟨"x", true, 0, 0, 0, 1, ⟨[], []⟩⟩ [] ∧
    calls_guarded_before 0
      (process_node ⟨fun _ => true, fun _ => .SUCCESS, fun _ _ _ => false⟩ 2
        ⟨"x", false, 0, 0, 0, 0, ⟨[], []⟩⟩
        (.group [.action ⟨.character .MOVE, [], none⟩,
          .action ⟨.character .MOVE, [], none⟩] none)).traceOf = true ∧
    (worker_process_popped ⟨fun _ => true, fun _ => .SUCCESS, fun _ _ _ => false⟩ 2
        ⟨"x", false, 0, 0, 0, 0, ⟨[], [("x", [("iron_ore", 3)])]⟩⟩
        (.action ⟨.character .MOVE, [], none⟩)).isOkResult = true ∧
    worker_process_popped ⟨fun _ => true, fun _ => .SUCCESS, fun _ _ _ => false⟩ 2
        ⟨"x", false, 0, 0, 0, 0, ⟨[], [("x", [("iron_ore", 3)])]⟩⟩
        (.action ⟨.character .MOVE, [], none⟩) =
      .ok false ⟨"x", false, 0, 0, 0, 2, ⟨[], []⟩⟩ [] ∧
    (dictGet "x" (⟨[], []⟩ : BankState).bank_reservations).getD [] = [] :=
  ⟨(abort_skips_actions_and_worker_cleans_up
      ⟨fun _ => true, fun _ => .SUCCESS, fun _ _ _ => false⟩ 0
      (fun _ _ => rfl)).1 0 ⟨"x", false, 0, 0, 0, 0, ⟨[], []⟩⟩
     (.action ⟨.character .MOVE, [], none⟩) (Or.inr rfl),
   (abort_skips_actions_and_worker_cleans_up
      ⟨fun _ => true, fun _ => .SUCCESS, fun _ _ _ => false⟩ 0
      (fun _ _ => rfl)).2.1 2 ⟨"x", false, 0, 0, 0, 0, ⟨[], []⟩⟩
     (.group [.action ⟨.character .MOVE, [], none⟩,
       .action ⟨.character .MOVE, [], none⟩] none),
   ((abort_skips_actions_and_worker_cleans_up
       ⟨fun _ => true, fun _ => .SUCCESS, fun _ _ _ => false⟩ 0
       (fun _ _ => rfl)).2.2 2
      ⟨"x", false, 0, 0, 0, 0, ⟨[], [("x", [("iron_ore", 3)])]⟩⟩
      (.action ⟨.character .MOVE, [], none⟩) false
      ⟨"x", true, 0, 0, 0, 1, ⟨[], [("x", [("iron_ore", 3)])]⟩⟩ [] rfl
      (Or.inl rfl)).1,
   rfl,
   rfl⟩

end ArtifactsMmo
